import Mathlib

/-!
Verification development for the openfairdb core.

This file gives a shallow embedding, in Lean, of the parts of the
openfairdb source that the verified properties talk about:

* the revisioned place store backed by SQLite
  (`src/infrastructure/db/sqlite/connection.rs`),
* the tantivy-based place search index and its query compositor
  (`src/infrastructure/db/tantivy/mod.rs`),
* the search usecase (`src/core/usecases/search.rs`), and
* the flow orchestration layer (`src/infrastructure/flows/`).

Rust integer columns (`BigInt`/`i64`) are modelled as `Int`, revision
numbers (`u64`) as `Nat`, SQL text as `String`, and IEEE-754 doubles as
`ℚ` or `ℝ` (exact arithmetic; floating-point rounding is not modelled).
Fallible operations return `Except`.  Database tables are lists of row
structures in insertion (rowid) order; `SELECT ... FROM t` without an
`ORDER BY` reads rows in that order, matching SQLite.

Parts of the repository that the claims depend on but that are not part
of the given source tree (the core entity definitions, the geo
primitives, the SQL migration DDL) are modelled from the specification
document; each such definition carries a doc comment that starts with
`Modelled from the spec:`.
-/

namespace OFDB

/-! ## Review status values

Modelled from the spec: the status enumeration is ordered with
`archived < 0`, `created = 0`, `confirmed = 1`, `rejected = 2`
(the `Status` entity lives in the core entity crate, which is not part
of the given source tree; the SQLite code compares the raw `SmallInt`
values). -/

/-- Modelled from the spec: raw value of `Status::archived()` (`< 0`). -/
def statusArchived : Int := -1

/-- Modelled from the spec: raw value of `Status::created()` (`= 0`). -/
def statusCreated : Int := 0

/-- Modelled from the spec: raw value of `Status::confirmed()` (`= 1`). -/
def statusConfirmed : Int := 1

/-- Modelled from the spec: raw value of `Status::rejected()` (`= 2`). -/
def statusRejected : Int := 2

/-! ## Error taxonomy

`RepoError` is the store-level error kind enumeration of the core
(`NotFound`, `TooManyFound`, `Conflict`, `Other`); the `Other` cause is
dropped in the model.  Diesel's `NotFound` maps to `RepoError::NotFound`
and every other database error to `RepoError::Other`
(`src/infrastructure/error.rs`). -/

inductive RepoError where
  | notFound : RepoError
  | tooManyFound : RepoError
  | conflict : RepoError
  | invalidInput : RepoError
  | other : RepoError
deriving DecidableEq, Repr

/-! ## Rating contexts and average rating values -/

/-- The six rating contexts, as enumerated by the string conversions in
`src/infrastructure/db/sqlite/util.rs`. -/
inductive RatingContext where
  | diversity | renewable | fairness | humanity | transparency | solidarity
deriving DecidableEq, Repr

/-- `RatingContext::total_count()`: the number of rating context variants.
The `util.rs` conversions enumerate exactly six. -/
def ratingContextTotalCount : Nat := 6

/-- Modelled from the spec: `AvgRatingValue::min()` — rating values range
over `[-1, 2]` (the `AvgRatingValue` entity is not part of the given
source tree). -/
def avgRatingMin : ℚ := -1

/-- Modelled from the spec: `AvgRatingValue::max()`. -/
def avgRatingMax : ℚ := 2

/-- Modelled from the spec: `AvgRatingValue::default()` — the neutral
rating, `0` (the boost factor of a default-rated document is `1`). -/
def avgRatingDefault : ℚ := 0

/-! ## Category vocabulary

Modelled from the spec: categories are a closed vocabulary mapped
bi-directionally between a category uid and a canonical tag name
(`Category` lives in the core entity crate, which is not part of the
given source tree).  The exact table contents do not matter for any of
the verified properties. -/

/-- Modelled from the spec: the closed category uid ↔ canonical tag
table. -/
def categoryTable : List (String × String) :=
  [("2cd00bebec0c48ba9db761da48678134", "non-profit"),
   ("77b3c33a92554bcf8e8c2c86cedd6f6f", "commercial"),
   ("c2dc278a2d6a4b9b8a50cb606fc017ed", "event")]

/-- Modelled from the spec: `Category::merge_ids_into_tags` /
`merge_uids_into_tags` — category uids are mapped through the closed
table to canonical tags and merged into the tag list; unknown category
uids are dropped. -/
def mergeIdsIntoTags (ids : List String) (tags : List String) : List String :=
  tags ++ ids.filterMap (fun i => (categoryTable.find? (fun p => p.1 == i)).map Prod.snd)

/-- Modelled from the spec: whether a tag is the canonical tag of some
category. -/
def isCategoryTag (tag : String) : Bool :=
  categoryTable.any (fun p => p.2 == tag)

/-- Modelled from the spec: `Category::split_from_tags` — splits a tag
list into the plain tags and the recognized category tags. -/
def splitFromTags (tags : List String) : List String × List String :=
  (tags.filter (fun t => !(isCategoryTag t)), tags.filter (fun t => isCategoryTag t))

/-! ## Coordinates and bounding boxes

Modelled from the spec: latitude and longitude are stored as 32-bit
signed integers in a fixed scale — degrees × 2^24 / 180 for latitude
and degrees × 2^24 / 360 for longitude, rounded half-to-even (the geo
primitives live in `src/core/util/geo.rs`, which is not part of the
given source tree).  Raw coordinates are modelled as `Int`; the legal
raw range for both axes is `[-2^23, 2^23]`. -/

/-- Modelled from the spec: the largest legal raw coordinate value,
`90 × 2^24 / 180 = 180 × 2^24 / 360 = 2^23`. -/
def rawCoordMax : Int := 8388608

/-- Modelled from the spec: rounding half-to-even on `ℚ`. -/
def roundHalfEven (q : ℚ) : Int :=
  let f : Int := ⌊q⌋
  let r : ℚ := q - f
  if r < 1/2 then f
  else if 1/2 < r then f + 1
  else if Even f then f else f + 1

/-- Modelled from the spec: degrees to raw latitude (× 2^24 / 180). -/
def latDegToRaw (deg : ℚ) : Int := roundHalfEven (deg * 16777216 / 180)

/-- Modelled from the spec: degrees to raw longitude (× 2^24 / 360). -/
def lngDegToRaw (deg : ℚ) : Int := roundHalfEven (deg * 16777216 / 360)

/-- A map point in raw fixed-point coordinates. -/
structure MapPointRaw where
  lat : Int
  lng : Int
deriving DecidableEq, Repr

/-- A bounding box: south-west and north-east corner.  Its longitude
interval is wrap-around iff `sw.lng > ne.lng`. -/
structure MapBboxRaw where
  sw : MapPointRaw
  ne : MapPointRaw
deriving DecidableEq, Repr

/-- Modelled from the spec: `MapBbox::contains_point` — inclusive on all
four edges; for a wrap-around bbox the covered longitudes are
`[sw.lng, +180°] ∪ [-180°, ne.lng]`. -/
def containsPoint (b : MapBboxRaw) (p : MapPointRaw) : Bool :=
  (b.sw.lat ≤ p.lat && p.lat ≤ b.ne.lat) &&
    (if b.sw.lng ≤ b.ne.lng then
      b.sw.lng ≤ p.lng && p.lng ≤ b.ne.lng
    else
      (b.sw.lng ≤ p.lng && p.lng ≤ rawCoordMax) ||
        ((-rawCoordMax) ≤ p.lng && p.lng ≤ b.ne.lng))

/-- Modelled from the spec: `extend_bbox` — the bbox grown by 10% of its
own side lengths in each direction, clipped to the legal coordinate
ranges, and left as wrap-around iff the original was.  (The growth
amount is irrelevant to the verified properties; integer division of
the raw side lengths stands in for the floating-point computation.) -/
def extendBbox (b : MapBboxRaw) : MapBboxRaw :=
  let dLat : Int := (b.ne.lat - b.sw.lat) / 10
  let lngLen : Int :=
    if b.sw.lng ≤ b.ne.lng then b.ne.lng - b.sw.lng
    else (rawCoordMax - b.sw.lng) + (b.ne.lng - (-rawCoordMax))
  let dLng : Int := lngLen / 10
  { sw := { lat := max (-rawCoordMax) (b.sw.lat - dLat),
            lng := max (-rawCoordMax) (b.sw.lng - dLng) },
    ne := { lat := min rawCoordMax (b.ne.lat + dLat),
            lng := min rawCoordMax (b.ne.lng + dLng) } }

/-! ## The tantivy place index model
(`src/infrastructure/db/tantivy/mod.rs`)

The index is modelled as a list of documents.  The embedded query
compositor `buildQuery` mirrors the source's `build_query`: it produces
a list of boolean clauses together with the `TopDocsMode`.  The
semantics of the produced boolean query (which documents match) follows
tantivy's documented `BooleanQuery` behaviour.  The external engine's
text analysis is approximated: the parsed free-text query is modelled
as matching a document when the lowercased query text occurs in one of
the default fields; no verified property depends on which documents a
text query matches. -/

/-- The schema fields that the embedded queries refer to. -/
inductive Field where
  | id | lat | lng | tag
deriving DecidableEq, Repr

/-- Occurrence marker of a clause in a boolean query. -/
inductive Occur where
  | must | mustNot | should
deriving DecidableEq, Repr

/-- The query ASTs produced by `build_query`.  `rangeIncl` is a range
query with both bounds included, `rangeExcl` one with both bounds
excluded; `textQ` stands for the query returned by tantivy's
`QueryParser` for the given (lowercased) text. -/
inductive Query where
  | term : Field → String → Query
  | rangeIncl : Field → Int → Int → Query
  | rangeExcl : Field → Int → Int → Query
  | boolQ : List (Occur × Query) → Query
  | textQ : String → Query
deriving Repr

/-- `TopDocsMode` as in the source: sort by the rating fast field, or
rank by the rating-boosted relevance score. -/
inductive TopDocsMode where
  | rating
  | scoreBoostedByRating
deriving DecidableEq, Repr

/-- The `IndexQuery` structure of the core (`src/core/db`), restricted
to the fields that `build_query` and the search usecase read.  The
`status` field is carried because the search usecase sets it, but the
embedded `build_query` (like the source file given) ignores it. -/
structure IndexQuery where
  includeBbox : Option MapBboxRaw := none
  excludeBbox : Option MapBboxRaw := none
  categories : List String := []
  ids : List String := []
  hashTags : List String := []
  textTags : List String := []
  text : Option String := none
  status : Option (List Int) := none
deriving Repr

/-- An indexed document: one place in the tantivy index.  `totalRating`
models the value stored in the `total_rating` fast field (the source
stores a monotone `u64` encoding of the average rating; the model keeps
the decoded rational value). -/
structure Doc where
  id : String := ""
  lat : Int := 0
  lng : Int := 0
  title : String := ""
  description : String := ""
  street : String := ""
  city : String := ""
  zip : String := ""
  country : String := ""
  tags : List String := []
  totalRating : ℚ := 0
deriving DecidableEq, Repr

/-- Whether the first char list is a prefix of the second. -/
def charListPrefixB : List Char → List Char → Bool
  | [], _ => true
  | _ :: _, [] => false
  | a :: as2, b :: bs => a == b && charListPrefixB as2 bs

/-- Whether the first char list occurs contiguously in the second. -/
def charListInfixB (needle hay : List Char) : Bool :=
  match hay with
  | [] => needle.isEmpty
  | _ :: rest => charListPrefixB needle hay || charListInfixB needle rest

/-- Whether the needle occurs as a contiguous substring of the lowercased
haystack (model of a text match on one field). -/
def strContains (haystack needle : String) : Bool :=
  charListInfixB needle.toList haystack.toLower.toList

/-- The id clauses of `build_query`: when `ids` is non-empty, a mandatory
exact-match term (single id) or disjunction of exact-match terms. -/
def idsClauses (q : IndexQuery) : List (Occur × Query) :=
  if q.ids.isEmpty then []
  else if q.ids.length > 1 then
    [(Occur.must, Query.boolQ (q.ids.map (fun i => (Occur.should, Query.term Field.id i))))]
  else
    [(Occur.must, Query.term Field.id (q.ids.headD ""))]

/-- The include-bbox clauses of `build_query`: a mandatory inclusive
range on lat; for lng either a mandatory inclusive range (regular) or a
mandatory-not exclusive range (wrap-around, `sw.lng > ne.lng`). -/
def includeBboxClauses (b : MapBboxRaw) : List (Occur × Query) :=
  (Occur.must, Query.rangeIncl Field.lat b.sw.lat b.ne.lat) ::
    (if b.sw.lng ≤ b.ne.lng then
      [(Occur.must, Query.rangeIncl Field.lng b.sw.lng b.ne.lng)]
    else
      [(Occur.mustNot, Query.rangeExcl Field.lng b.ne.lng b.sw.lng)])

/-- The exclude-bbox clauses of `build_query`: a mandatory-not inclusive
range on lat; for lng either a mandatory-not inclusive range (regular)
or a mandatory exclusive range (wrap-around). -/
def excludeBboxClauses (b : MapBboxRaw) : List (Occur × Query) :=
  (Occur.mustNot, Query.rangeIncl Field.lat b.sw.lat b.ne.lat) ::
    (if b.sw.lng ≤ b.ne.lng then
      [(Occur.mustNot, Query.rangeIncl Field.lng b.sw.lng b.ne.lng)]
    else
      [(Occur.must, Query.rangeExcl Field.lng b.ne.lng b.sw.lng)])

/-- The category clauses of `build_query`: the recognized category tags
of the merged category-uid/hash-tag list, as a mandatory term or
disjunction of terms. -/
def categoryClauses (categories : List String) : List (Occur × Query) :=
  if categories.isEmpty then []
  else if categories.length > 1 then
    [(Occur.must, Query.boolQ (categories.map
      (fun t => (Occur.should, Query.term Field.tag t))))]
  else
    [(Occur.must, Query.term Field.tag (categories.headD ""))]

/-- The hash-tag clauses of `build_query`: each remaining (non-category)
tag as a mandatory lowercased term. -/
def hashTagClauses (tags : List String) : List (Occur × Query) :=
  tags.map (fun t => (Occur.must, Query.term Field.tag t.toLower))

/-- The optional text/text-tag `Should` clauses of `build_query`: the
parsed free text contributes only when the query carries hash tags or
text tags (otherwise the text query is pushed directly to the top
level); each text tag contributes a lowercased term.  The model treats
`QueryParser::parse_query` as always succeeding. -/
def textAndTagsQueries (q : IndexQuery) : List (Occur × Query) :=
  (match q.text with
   | some t =>
     if q.hashTags.isEmpty && q.textTags.isEmpty then []
     else [(Occur.should, Query.textQ t.toLower)]
   | none => []) ++
    q.textTags.map (fun t => (Occur.should, Query.term Field.tag t.toLower))

/-- The directly-pushed text clause of `build_query`: when the query has
free text but neither hash tags nor text tags, the parsed text query is
appended as a top-level mandatory clause. -/
def directTextClauses (q : IndexQuery) : List (Occur × Query) :=
  match q.text with
  | some t =>
    if q.hashTags.isEmpty && q.textTags.isEmpty then
      [(Occur.must, Query.textQ t.toLower)]
    else []
  | none => []

/-- All clauses of `build_query` up to (but excluding) the final
text-and-tags subquery, in the source's push order. -/
def baseClauses (q : IndexQuery) : List (Occur × Query) :=
  idsClauses q ++
    (match q.includeBbox with | some b => includeBboxClauses b | none => []) ++
    (match q.excludeBbox with | some b => excludeBboxClauses b | none => []) ++
    (let (tags, cats) := splitFromTags (mergeIdsIntoTags q.categories q.hashTags)
     categoryClauses cats ++ hashTagClauses tags) ++
    directTextClauses q

/-- `build_query`: the boolean clause list and the ranking mode.  When
the text/text-tag `Should` subquery is empty the mode is `rating` and no
subquery is appended; otherwise the subquery is appended as mandatory
and the mode is `scoreBoostedByRating`. -/
def buildQuery (q : IndexQuery) : List (Occur × Query) × TopDocsMode :=
  if (textAndTagsQueries q).isEmpty then
    (baseClauses q, TopDocsMode.rating)
  else
    (baseClauses q ++ [(Occur.must, Query.boolQ (textAndTagsQueries q))],
      TopDocsMode.scoreBoostedByRating)

mutual

/-- Whether a document matches a query AST (tantivy semantics; text
queries approximated as substring matches over the default fields). -/
def docMatches (d : Doc) : Query → Bool
  | Query.term f v =>
    (match f with
     | Field.id => d.id == v
     | Field.tag => d.tags.contains v
     | Field.lat => false
     | Field.lng => false)
  | Query.rangeIncl f lo hi =>
    (match f with
     | Field.lat => lo ≤ d.lat && d.lat ≤ hi
     | Field.lng => lo ≤ d.lng && d.lng ≤ hi
     | Field.id => false
     | Field.tag => false)
  | Query.rangeExcl f lo hi =>
    (match f with
     | Field.lat => lo < d.lat && d.lat < hi
     | Field.lng => lo < d.lng && d.lng < hi
     | Field.id => false
     | Field.tag => false)
  | Query.boolQ cs =>
    let r := clausesEval d cs
    if !r.1 && !r.2.2.2.1 then false
    else r.2.1 && !r.2.2.1 && (r.1 || r.2.2.2.2)
  | Query.textQ t =>
    strContains d.title t || strContains d.description t ||
      strContains d.street t || strContains d.city t ||
        strContains d.zip t || strContains d.country t

/-- Folds a clause list into
`(hasMust, allMustsMatch, someMustNotMatches, hasShould, someShouldMatches)`,
the data needed for tantivy's `BooleanQuery` semantics. -/
def clausesEval (d : Doc) : List (Occur × Query) → (Bool × Bool × Bool × Bool × Bool)
  | [] => (false, true, false, false, false)
  | (o, q) :: rest =>
    let r := clausesEval d rest
    match o with
    | Occur.must => (true, docMatches d q && r.2.1, r.2.2.1, r.2.2.2.1, r.2.2.2.2)
    | Occur.mustNot => (r.1, r.2.1, docMatches d q || r.2.2.1, r.2.2.2.1, r.2.2.2.2)
    | Occur.should => (r.1, r.2.1, r.2.2.1, true, docMatches d q || r.2.2.2.2)

end

/-- Whether a document matches a clause list, following tantivy's
`BooleanQuery` semantics: all `Must` clauses match, no `MustNot` clause
matches, at least one `Should` clause matches when there is no `Must`
clause, and a query without `Must` and `Should` clauses matches
nothing. -/
def docMatchesClauses (d : Doc) (cs : List (Occur × Query)) : Bool :=
  docMatches d (Query.boolQ cs)

/-! ## Scoring (`query_places`, score-boosted mode) -/

/-- The boost factor computed by the `tweak_score` closure of
`query_places`: for a total rating below the default,
`(rating − min) / (default − min)`; otherwise
`1 + total_count × (rating − default)`. -/
def boostFactor (totalRating : ℚ) : ℚ :=
  if totalRating < avgRatingDefault then
    (totalRating - avgRatingMin) / (avgRatingDefault - avgRatingMin)
  else
    1 + (ratingContextTotalCount : ℚ) * (totalRating - avgRatingDefault)

/-- The transformed relevance score of the score-boosted mode: the raw
relevance score is compressed by `log2(1 + s)` and multiplied by the
boost factor of the document's total rating.  The source computes this
in 32/64-bit floating point; the model uses exact reals. -/
noncomputable def tweakedScore (originalScore : ℝ) (totalRating : ℚ) : ℝ :=
  Real.logb 2 (1 + originalScore) * ((boostFactor totalRating : ℚ) : ℝ)

/-- Descending order on the `total_rating` fast field (the collector
`TopDocs::with_limit(limit).order_by_u64_field(total_rating)`; the `u64`
encoding of the rating is monotone, so ordering by it coincides with
ordering by the decoded value). -/
def docRatingGe (a b : Doc) : Prop := b.totalRating ≤ a.totalRating

instance : DecidableRel docRatingGe := fun a b =>
  inferInstanceAs (Decidable (b.totalRating ≤ a.totalRating))

/-- Descending order on the boosted score, given the engine's raw
relevance score for each document.  The engine orders by
`log2(1 + s) × boost(r)` in floating point; the model orders by the
rational surrogate `s × boost(r)`, which no verified property depends
on (the exact transform is embedded separately as `tweakedScore`). -/
def docBoostGe (rawScore : Doc → ℚ) (a b : Doc) : Prop :=
  rawScore b * boostFactor b.totalRating ≤ rawScore a * boostFactor a.totalRating

instance (rawScore : Doc → ℚ) : DecidableRel (docBoostGe rawScore) := fun _ _ =>
  inferInstanceAs (Decidable (_ ≤ _))

/-- `query_places`: fails on `limit == 0`; otherwise builds the query,
collects the matching documents ordered by the mode's sort key, and
returns at most `limit` of them.  `rawScore` stands for the engine's
raw relevance score (BM25), which is external to the embedded code.
(In rating mode the source performs the identical search twice and uses
the second result; the model performs it once.) -/
def queryPlaces (docs : List Doc) (rawScore : Doc → ℚ) (q : IndexQuery)
    (limit : Nat) : Except String (List Doc) :=
  if limit == 0 then Except.error ("Invalid limit: " ++ toString limit)
  else
    let bq := buildQuery q
    let hits := docs.filter (fun d => docMatchesClauses d bq.1)
    match bq.2 with
    | TopDocsMode.rating =>
      Except.ok ((hits.insertionSort docRatingGe).take limit)
    | TopDocsMode.scoreBoostedByRating =>
      Except.ok ((hits.insertionSort (docBoostGe rawScore)).take limit)

/-! ## The search usecase (`src/core/usecases/search.rs`)

The text utilities `extract_hash_tags`, `remove_hash_tags` and
`split_text_to_words` live in `src/core/util`, which is not part of the
given source tree; they are modelled from the spec: hash tags are the
`#`-prefixed whitespace-delimited tokens, stripped of the leading `#`,
lowercased and deduplicated; the remaining text is the other tokens;
text tags are the word tokens of the remaining text. -/

/-- Splits a char list into its maximal runs of non-space chars. -/
def wordsAux (cur : List Char) : List Char → List (List Char)
  | [] => if cur.isEmpty then [] else [cur.reverse]
  | c :: rest =>
    if c == ' ' then
      (if cur.isEmpty then wordsAux [] rest else cur.reverse :: wordsAux [] rest)
    else wordsAux (c :: cur) rest

/-- The whitespace-delimited word tokens of a string. -/
def wordsOf (s : String) : List String :=
  (wordsAux [] s.toList).map (fun cs => String.mk cs)

/-- Modelled from the spec: `util::extract_hash_tags` — the tokens
matching `#\S+`, stripped of the leading `#`, lowercased,
deduplicated. -/
def extractHashTags (s : String) : List String :=
  (((wordsOf s).filter (fun w => w.startsWith "#")).map
    (fun w => (w.drop 1).toLower)).dedup

/-- Modelled from the spec: `util::remove_hash_tags` — the text with the
`#\S+` tokens removed. -/
def removeHashTags (s : String) : String :=
  String.intercalate " " ((wordsOf s).filter (fun w => !(w.startsWith "#")))

/-- Modelled from the spec: `filter::split_text_to_words` — the word
tokens of a text. -/
def splitTextToWords (s : String) : List String := wordsOf s

/-- The search request (`SearchRequest` in `search.rs`). -/
structure SearchRequest where
  bbox : MapBboxRaw
  ids : List String := []
  categories : List String := []
  hashTags : List String := []
  text : Option String := none

/-- The `search` usecase: extracts hash tags from the free text and
appends the request's hash tags; drops the free text when nothing but
hash tags and whitespace remains; queries the visible bbox with the
full limit; when fewer than `limit` visible results return, backfills
invisible results from `extend_bbox(bbox)` minus the visible bbox with
the remaining limit.  (Index errors are wrapped into `RepoError::Other`
by the source; the model keeps the index's error value.) -/
def searchUsecase (docs : List Doc) (rawScore : Doc → ℚ) (req : SearchRequest)
    (limit : Nat) : Except String (List Doc × List Doc) :=
  let visibleBbox := req.bbox
  let hashTags :=
    (match req.text with | some t => extractHashTags t | none => []) ++ req.hashTags
  let text : Option String :=
    match req.text with
    | some t =>
      let r := removeHashTags t
      if r.toList.all (fun c => c == ' ') then none else some r
    | none => none
  let textTags := match text with | some t => splitTextToWords t | none => []
  let vq : IndexQuery :=
    { includeBbox := some visibleBbox, excludeBbox := none,
      categories := req.categories, ids := req.ids, hashTags := hashTags,
      textTags := textTags, text := text, status := some [] }
  match queryPlaces docs rawScore vq limit with
  | Except.error e => Except.error e
  | Except.ok visiblePlaces =>
    if visiblePlaces.length < limit then
      match queryPlaces docs rawScore
          { vq with includeBbox := some (extendBbox visibleBbox),
                    excludeBbox := some visibleBbox }
          (limit - visiblePlaces.length) with
      | Except.error e => Except.error e
      | Except.ok invisiblePlaces => Except.ok (visiblePlaces, invisiblePlaces)
    else Except.ok (visiblePlaces, [])

/-! ## The SQLite place store
(`src/infrastructure/db/sqlite/connection.rs`)

Tables are lists of rows in rowid (insertion) order.  Fresh rowids come
from per-table counters.  Uniqueness constraints of the migration DDL
(not part of the given source tree) are modelled from the spec: `uid`
is unique on `place`, `(place_id, rev)` is a composite unique key on
`place_rev`. -/

/-- A row of the `place` table as used by `connection.rs`:
`(id, uid, rev)` where `rev` is the current-revision pointer. -/
structure PlaceRow where
  id : Int
  uid : String
  rev : Int
deriving DecidableEq, Repr

/-- The non-key payload columns of a `place_rev` row. -/
structure RevPayload where
  title : String := ""
  description : String := ""
  lat : ℚ := 0
  lng : ℚ := 0
  street : Option String := none
  zip : Option String := none
  city : Option String := none
  country : Option String := none
  email : Option String := none
  phone : Option String := none
  homepage : Option String := none
  license : String := ""
  imageUrl : Option String := none
  imageLinkUrl : Option String := none
deriving DecidableEq, Repr

/-- A row of the `place_rev` table. -/
structure PlaceRevRow where
  id : Int
  placeId : Int
  rev : Int
  createdAt : Int
  createdBy : Option Int
  status : Int
  payload : RevPayload
deriving DecidableEq, Repr

/-- A row of the `place_rev_status_log` table (the insert never reads
the rowid back, so none is modelled). -/
structure RevLogRow where
  placeRevId : Int
  status : Int
  createdAt : Int
  createdBy : Option Int
  context : Option String
  notes : Option String
deriving DecidableEq, Repr

/-- A row of the `place_rev_tag` table. -/
structure RevTagRow where
  placeRevId : Int
  tag : String
deriving DecidableEq, Repr

/-- A row of the `users` table (restricted to the columns the verified
operations read). -/
structure UserRow where
  id : Int
  email : String
deriving DecidableEq, Repr

/-- A row of the `user_tokens` table. -/
structure TokenRow where
  id : Int
  userId : Int
  expiresAt : Int
  nonce : String
deriving DecidableEq, Repr

/-- The modelled SQLite database. -/
structure SqlStore where
  places : List PlaceRow := []
  placeRevs : List PlaceRevRow := []
  revLogs : List RevLogRow := []
  revTags : List RevTagRow := []
  users : List UserRow := []
  userTokens : List TokenRow := []
  nextPlaceId : Int := 1
  nextRevId : Int := 1
  nextTokenId : Int := 1
deriving Repr

/-- The `Entry` value handed to `create_entry` (the fields destructured
by `new_place_rev_from_entry`). -/
structure Entry where
  uid : String
  createdAt : Int := 0
  archivedAt : Option Int := none
  version : Nat := 0
  title : String := ""
  description : String := ""
  lat : ℚ := 0
  lng : ℚ := 0
  street : Option String := none
  zip : Option String := none
  city : Option String := none
  country : Option String := none
  email : Option String := none
  phone : Option String := none
  homepage : Option String := none
  categories : List String := []
  tags : List String := []
  license : String := ""
  imageUrl : Option String := none
  imageLinkUrl : Option String := none
deriving Repr

/-- `resolve_place_id`: the rowid of the first `place` row with the
given uid (`Err(NotFound)` when there is none). -/
def resolvePlaceId (s : SqlStore) (uid : String) : Except RepoError Int :=
  match s.places.find? (fun p => p.uid == uid) with
  | some p => Except.ok p.id
  | none => Except.error RepoError.notFound

/-- `resolve_place_rev_id`: the rowid of the first `place_rev` row with
the given `(place_id, rev)` pair. -/
def resolvePlaceRevId (s : SqlStore) (placeId rev : Int) : Except RepoError Int :=
  match s.placeRevs.find? (fun r => r.placeId == placeId && r.rev == rev) with
  | some r => Except.ok r.id
  | none => Except.error RepoError.notFound

/-- The `NewPlaceRev` insert value built by `new_place_rev_from_entry`. -/
structure NewPlaceRev where
  placeId : Int
  rev : Int
  createdAt : Int
  createdBy : Option Int
  status : Int
  payload : RevPayload
deriving Repr

/-- `new_place_rev_from_entry`: for `version == 0` inserts the `place`
row with `insert_or_ignore` (the uid-uniqueness conflict is ignored);
for `version > 0` updates the `place` row whose uid matches and whose
pointer equals `version − 1` to point at `version` — the number of
affected rows is only checked by a `debug_assert`.  Then resolves the
place rowid (failing `NotFound` when no `place` row with the uid
exists), chooses `(created_at, status)` as `(archived_at, archived)`
when `archived_at` is set and `(created_at, created)` otherwise, and
merges the category uids into the tag list. -/
def newPlaceRevFromEntry (s : SqlStore) (e : Entry) :
    Except RepoError (SqlStore × NewPlaceRev × List String) :=
  let s1 : SqlStore :=
    if e.version == 0 then
      if s.places.any (fun p => p.uid == e.uid) then s
      else
        { s with
          places := s.places ++ [{ id := s.nextPlaceId, uid := e.uid, rev := 0 }],
          nextPlaceId := s.nextPlaceId + 1 }
    else
      { s with
        places := s.places.map (fun p =>
          if p.uid == e.uid && p.rev == (e.version : Int) - 1 then
            { p with rev := (e.version : Int) }
          else p) }
  match resolvePlaceId s1 e.uid with
  | Except.error err => Except.error err
  | Except.ok placeId =>
    let ca : Int × Int :=
      match e.archivedAt with
      | some archivedAt => (archivedAt, statusArchived)
      | none => (e.createdAt, statusCreated)
    let npr : NewPlaceRev :=
      { placeId := placeId, rev := (e.version : Int), createdAt := ca.1,
        createdBy := none, status := ca.2,
        payload :=
          { title := e.title, description := e.description, lat := e.lat,
            lng := e.lng, street := e.street, zip := e.zip, city := e.city,
            country := e.country, email := e.email, phone := e.phone,
            homepage := e.homepage, license := e.license,
            imageUrl := e.imageUrl, imageLinkUrl := e.imageLinkUrl } }
    Except.ok (s1, npr, mergeIdsIntoTags e.categories e.tags)

/-- Errors of `create_entry`: a repository error, or the Rust `panic`
raised by the `assert_eq!(Status::created(), status)` guard. -/
inductive StoreErr where
  | repo : RepoError → StoreErr
  | panicAssert : StoreErr
deriving DecidableEq, Repr

/-- `create_entry`: builds the new revision from the entry, asserts that
its status is `created` (a hard panic otherwise), inserts the
`place_rev` row (the composite `(place_id, rev)` unique key turns a
duplicate into a database error, surfaced as `RepoError::Other`),
resolves the fresh rowid back, and appends the status-log row (notes
`"created"`) and one tag row per tag. -/
def createEntry (s : SqlStore) (e : Entry) : Except StoreErr SqlStore :=
  match newPlaceRevFromEntry s e with
  | Except.error err => Except.error (StoreErr.repo err)
  | Except.ok (s1, npr, tags) =>
    if !(npr.status == statusCreated) then Except.error StoreErr.panicAssert
    else if s1.placeRevs.any (fun r => r.placeId == npr.placeId && r.rev == npr.rev) then
      Except.error (StoreErr.repo RepoError.other)
    else
      let revId := s1.nextRevId
      let s2 : SqlStore :=
        { s1 with
          placeRevs := s1.placeRevs ++
            [{ id := revId, placeId := npr.placeId, rev := npr.rev,
               createdAt := npr.createdAt, createdBy := npr.createdBy,
               status := npr.status, payload := npr.payload }],
          nextRevId := s1.nextRevId + 1 }
      match resolvePlaceRevId s2 npr.placeId npr.rev with
      | Except.error err => Except.error (StoreErr.repo err)
      | Except.ok placeRevId =>
        Except.ok
          { s2 with
            revLogs := s2.revLogs ++
              [{ placeRevId := placeRevId, status := npr.status,
                 createdAt := npr.createdAt, createdBy := npr.createdBy,
                 context := none, notes := some "created" }],
            revTags := s2.revTags ++
              tags.map (fun t => { placeRevId := placeRevId, tag := t }) }

/-- The rowids of the current revisions of the places whose uid is
listed: the inner join of `place` and `place_rev` on
`place_rev.place_id = place.id ∧ place_rev.rev = place.rev`, filtered
by uid (`archive_entries`, first query). -/
def currentRevIds (s : SqlStore) (uids : List String) : List Int :=
  ((s.places.filter (fun p => uids.contains p.uid)).flatMap (fun p =>
    (s.placeRevs.filter (fun r => r.placeId == p.id && r.rev == p.rev)).map
      (fun r => r.id)))

/-- One iteration of the `archive_entries` loop: sets the status of the
not-yet-archived `place_rev` rows with the given rowid to `archived`;
zero affected rows fail `NotFound`, more than one fails `TooManyFound`
(unreachable for unique rowids), exactly one appends the status-log row
(notes `"archived"`). -/
def archiveRevStep (archivedAt : Int) (s : SqlStore) (revId : Int) :
    Except RepoError SqlStore :=
  let updateCount :=
    (s.placeRevs.filter (fun r => r.id == revId && !(r.status == statusArchived))).length
  let s1 : SqlStore :=
    { s with placeRevs := s.placeRevs.map (fun r =>
        if r.id == revId && !(r.status == statusArchived) then
          { r with status := statusArchived }
        else r) }
  if updateCount > 0 then
    if updateCount > 1 then Except.error RepoError.tooManyFound
    else
      Except.ok
        { s1 with revLogs := s1.revLogs ++
            [{ placeRevId := revId, status := statusArchived,
               createdAt := archivedAt, createdBy := none,
               context := none, notes := some "archived" }] }
  else Except.error RepoError.notFound

/-- The `archive_entries` loop over the collected rev rowids. -/
def archiveRevLoop (archivedAt : Int) (s : SqlStore) :
    List Int → Except RepoError SqlStore
  | [] => Except.ok s
  | revId :: rest =>
    match archiveRevStep archivedAt s revId with
    | Except.error err => Except.error err
    | Except.ok s1 => archiveRevLoop archivedAt s1 rest

/-- `archive_entries(uids, archived_at)`: collects the current-revision
rowids of the listed uids, runs the archive loop over them, and returns
the number of collected rowids.  (On an error the enclosing flow
transaction rolls the partial updates back; the model therefore only
reports the error.) -/
def archiveEntries (s : SqlStore) (uids : List String) (archivedAt : Int) :
    Except RepoError (SqlStore × Nat) :=
  let revIds := currentRevIds s uids
  match archiveRevLoop archivedAt s revIds with
  | Except.error err => Except.error err
  | Except.ok s1 => Except.ok (s1, revIds.length)

/-! ## `most_popular_entry_tags`

The operation is raw SQL:

`SELECT tag, COUNT(*) as count FROM place_rev_tag WHERE place_rev_id IN
(SELECT id FROM place_rev WHERE (place_id, rev) IN (SELECT id, rev FROM
place) AND status > 0) GROUP BY tag [HAVING ...] ORDER BY count DESC,
tag [OFFSET ...] [LIMIT ...]`

The embedding gives the relational meaning of that statement.  The
source appends `" OFFSET n"` (only when the offset is positive) and
then `" LIMIT m"`; SQLite's grammar accepts `OFFSET` only after a
`LIMIT` clause, so whenever the offset is positive the statement fails
to prepare and diesel surfaces the database error as
`RepoError::Other` — the operation then paginates nothing. -/

/-- Byte-order (here: code-point order) comparison of char lists; models
SQLite's default ordering on `TEXT` columns. -/
def charListLe : List Char → List Char → Bool
  | [], _ => true
  | _ :: _, [] => false
  | a :: as2, b :: bs =>
    if a < b then true else if b < a then false else charListLe as2 bs

/-- The `ORDER BY count DESC, tag` ordering on `(tag, count)` rows. -/
def tagFreqRel (a b : String × Nat) : Prop :=
  b.2 < a.2 ∨ (a.2 = b.2 ∧ charListLe a.1.toList b.1.toList = true)

instance : DecidableRel tagFreqRel := fun _ _ =>
  inferInstanceAs (Decidable (_ ∨ _))

/-- The inner sub-select: rowids of `place_rev` rows whose
`(place_id, rev)` pair appears in `place` (i.e. current revisions) and
whose status is strictly positive. -/
def qualifyingRevIds (s : SqlStore) : List Int :=
  (s.placeRevs.filter (fun r =>
    s.places.any (fun p => p.id == r.placeId && p.rev == r.rev) && r.status > 0)).map
    (fun r => r.id)

/-- The `HAVING` bounds of `most_popular_entry_tags`: `count >= min`
and/or `count <= max`, each only when given. -/
def tagCountBoundsOk (minCount maxCount : Option Nat) (count : Nat) : Bool :=
  (match minCount with | some m => m ≤ count | none => true) &&
    (match maxCount with | some m => count ≤ m | none => true)

/-- `most_popular_entry_tags(params, pagination)`: group the qualifying
`place_rev_tag` rows by tag, count each group, filter by the bounds,
order by count descending then tag ascending, and apply the limit.
When `pagination.offset.unwrap_or(0) > 0` the source appends
`" OFFSET n"` *before* `" LIMIT m"`; SQLite rejects that statement, so
the call fails with `RepoError::Other` instead of returning rows. -/
def mostPopularEntryTags (s : SqlStore) (minCount maxCount : Option Nat)
    (offset : Option Nat) (limit : Option Nat) :
    Except RepoError (List (String × Nat)) :=
  let rows := s.revTags.filter (fun t => (qualifyingRevIds s).contains t.placeRevId)
  let grouped := (rows.map (fun t => t.tag)).dedup.map
    (fun tag => (tag, rows.countP (fun t => t.tag == tag)))
  let filtered := grouped.filter (fun p => tagCountBoundsOk minCount maxCount p.2)
  let sorted := filtered.insertionSort tagFreqRel
  if offset.getD 0 > 0 then Except.error RepoError.other
  else
    match limit with
    | some l => Except.ok (sorted.take l)
    | none => Except.ok sorted

/-- Specification rendering of `most_popular_tags`, parametric in the
status filter: tag usage is aggregated over exactly the current
revisions whose status satisfies `statusOk`, the aggregated counts are
filtered by the bounds inclusively, ordered by count descending then
tag ascending, and paginated.  With `statusOk = (0 ≤ ·)` this is the
claimed behaviour (status ≥ created); the source behaves like
`statusOk = (0 < ·)`. -/
def mostPopularTagsSpec (statusOk : Int → Bool) (s : SqlStore)
    (minCount maxCount : Option Nat) (offset : Option Nat) (limit : Option Nat) :
    List (String × Nat) :=
  let qualifies : RevTagRow → Bool := fun t =>
    s.placeRevs.any (fun r =>
      r.id == t.placeRevId && statusOk r.status &&
        s.places.any (fun p => p.id == r.placeId && p.rev == r.rev))
  let rows := s.revTags.filter qualifies
  let grouped := (rows.map (fun t => t.tag)).dedup.map
    (fun tag => (tag, rows.countP (fun t => t.tag == tag)))
  let filtered := grouped.filter (fun p => tagCountBoundsOk minCount maxCount p.2)
  let sorted := filtered.insertionSort tagFreqRel
  let afterOffset := sorted.drop (offset.getD 0)
  match limit with
  | some l => afterOffset.take l
  | none => afterOffset

/-! ## User tokens (`replace_user_token`) -/

/-- An email/nonce pair. -/
structure EmailNonce where
  email : String
  nonce : String
deriving DecidableEq, Repr

/-- A user token: an email nonce plus its expiry. -/
structure UserToken where
  emailNonce : EmailNonce
  expiresAt : Int
deriving DecidableEq, Repr

/-- `resolve_user_id_by_email`. -/
def resolveUserIdByEmail (s : SqlStore) (email : String) : Except RepoError Int :=
  match s.users.find? (fun u => u.email == email) with
  | some u => Except.ok u.id
  | none => Except.error RepoError.notFound

/-- `replace_user_token(token)`: resolves the user id by the nonce's
email, then inserts the `(user_id, nonce, expires_at)` row.

Modelled from the spec: the `user_tokens` DDL lives in the migrations,
which are not part of the given source tree; per the spec a user has at
most one live token and *inserting replaces*, so the insert is modelled
with replace-on-conflict semantics over `user_id` (the conflicting rows
are removed, the new row is appended, and one affected row is
reported).  The source's `...or update` fallback branch (taken when the
insert reports zero affected rows) is embedded but unreachable under
the modelled DDL. -/
def replaceUserToken (s : SqlStore) (token : UserToken) :
    Except RepoError (SqlStore × EmailNonce) :=
  match resolveUserIdByEmail s token.emailNonce.email with
  | Except.error err => Except.error err
  | Except.ok userId =>
    let affected : Nat := 1
    let s1 : SqlStore :=
      { s with
        userTokens := (s.userTokens.filter (fun r => !(r.userId == userId))) ++
          [{ id := s.nextTokenId, userId := userId,
             expiresAt := token.expiresAt, nonce := token.emailNonce.nonce }],
        nextTokenId := s.nextTokenId + 1 }
    if affected == 0 then
      Except.ok
        ({ s1 with userTokens := s1.userTokens.map (fun r =>
            if r.userId == userId then
              { r with expiresAt := token.expiresAt, nonce := token.emailNonce.nonce }
            else r) },
          token.emailNonce)
    else Except.ok (s1, token.emailNonce)

/-! ## Flow orchestration (`src/infrastructure/flows/`)

A flow runs its store mutations inside one transaction on the exclusive
handle and then performs the index update, the index flush, and the
notifications.  The store step is modelled as a state-transforming
function (the transaction: on an error the state is left untouched);
the post-commit steps are modelled by their outcome values, which the
flows log and discard. -/

/-- `create_place`: the transaction (prepare + store) either fails the
flow with its error and leaves the store untouched, or commits; the
reindex-and-flush outcome and the notification outcome are logged and
discarded. -/
def createPlaceFlow {σ P E : Type} (s : σ)
    (storeTx : σ → Except E (σ × P))
    (reindexAndFlush : P → Except String Unit)
    (notify : P → Except String Unit) : σ × Except E P :=
  match storeTx s with
  | Except.error e => (s, Except.error e)
  | Except.ok (s1, place) =>
    match reindexAndFlush place, notify place with
    | _, _ => (s1, Except.ok place)

/-- `post_archive_places`: removes each archived id from the index and
flushes; every index error is logged, and the function always returns
`Ok(())`. -/
def postArchivePlaces {E : Type} (unindexResults : List (Except String Unit))
    (flushResult : Except String Unit) : Except E Unit :=
  match unindexResults, flushResult with
  | _, _ => Except.ok ()

/-- `archive_places`: the store transaction (`exec_archive_places`)
either fails the flow and leaves the store untouched, or commits, after
which `post_archive_places` runs (and never fails). -/
def archivePlacesFlow {σ E : Type} (s : σ)
    (storeTx : σ → Except E σ)
    (unindexResults : List (Except String Unit))
    (flushResult : Except String Unit) : σ × Except E Unit :=
  match storeTx s with
  | Except.error e => (s, Except.error e)
  | Except.ok s1 =>
    match postArchivePlaces (E := E) unindexResults flushResult with
    | Except.error e => (s1, Except.error e)
    | Except.ok _ => (s1, Except.ok ())

/-! ## Helper lemmas -/

theorem docRatingGe_total : ∀ a b : Doc, docRatingGe a b ∨ docRatingGe b a := by
  intro a b
  exact (le_total b.totalRating a.totalRating).imp (fun h => h) (fun h => h)

instance : IsTotal Doc docRatingGe := ⟨docRatingGe_total⟩

instance : IsTrans Doc docRatingGe :=
  ⟨fun _ _ _ hab hbc => le_trans hbc hab⟩

instance (rawScore : Doc → ℚ) : IsTotal Doc (docBoostGe rawScore) :=
  ⟨fun a b =>
    (le_total (rawScore b * boostFactor b.totalRating)
      (rawScore a * boostFactor a.totalRating)).imp (fun h => h) (fun h => h)⟩

instance (rawScore : Doc → ℚ) : IsTrans Doc (docBoostGe rawScore) :=
  ⟨fun _ _ _ hab hbc => le_trans hbc hab⟩

theorem queryPlaces_ok_mem {docs : List Doc} {rawScore : Doc → ℚ} {q : IndexQuery}
    {limit : Nat} {res : List Doc} (h : queryPlaces docs rawScore q limit = Except.ok res) :
    ∀ d ∈ res, d ∈ docs ∧ docMatchesClauses d (buildQuery q).1 = true := by
  intro d hd
  unfold queryPlaces at h
  by_cases hl : limit == 0
  · simp [hl] at h
  · simp only [hl, Bool.false_eq_true, if_false] at h
    have hmem : d ∈ docs.filter (fun d => docMatchesClauses d (buildQuery q).1) := by
      rcases hmode : (buildQuery q).2 with _ | _ <;> rw [hmode] at h <;>
        simp only [Except.ok.injEq] at h <;> subst h
      · exact (List.perm_insertionSort docRatingGe _).mem_iff.mp
          (List.take_sublist _ _ |>.mem hd)
      · exact (List.perm_insertionSort (docBoostGe rawScore) _).mem_iff.mp
          (List.take_sublist _ _ |>.mem hd)
    have := List.mem_filter.mp hmem
    exact ⟨this.1, this.2⟩

theorem queryPlaces_ok_length {docs : List Doc} {rawScore : Doc → ℚ} {q : IndexQuery}
    {limit : Nat} {res : List Doc} (h : queryPlaces docs rawScore q limit = Except.ok res) :
    res.length ≤ limit := by
  unfold queryPlaces at h
  by_cases hl : limit == 0
  · simp [hl] at h
  · simp only [hl, Bool.false_eq_true, if_false] at h
    rcases hmode : (buildQuery q).2 with _ | _ <;> rw [hmode] at h <;>
      simp only [Except.ok.injEq] at h <;> subst h <;>
      exact List.length_take_le _ _

/-- The `allMustsMatch` component of `clausesEval`. -/
theorem clausesEval_allMust (d : Doc) (cs : List (Occur × Query)) :
    (clausesEval d cs).2.1 = true ↔
      ∀ c ∈ cs, c.1 = Occur.must → docMatches d c.2 = true := by
  induction cs with
  | nil => simp [clausesEval]
  | cons c rest ih =>
    obtain ⟨o, qq⟩ := c
    rcases o with _ | _ | _ <;>
      simp [clausesEval, ih, Bool.and_eq_true]

/-- The `someMustNotMatches` component of `clausesEval`. -/
theorem clausesEval_mustNot (d : Doc) (cs : List (Occur × Query)) :
    (clausesEval d cs).2.2.1 = false ↔
      ∀ c ∈ cs, c.1 = Occur.mustNot → docMatches d c.2 = false := by
  induction cs with
  | nil => simp [clausesEval]
  | cons c rest ih =>
    obtain ⟨o, qq⟩ := c
    rcases o with _ | _ | _ <;>
      simp [clausesEval, ih, Bool.or_eq_false_iff]

/-- A document matching a clause list satisfies every `Must` clause and
violates every `MustNot` clause. -/
theorem docMatchesClauses_spec {d : Doc} {cs : List (Occur × Query)}
    (h : docMatchesClauses d cs = true) :
    ∀ c ∈ cs, (c.1 = Occur.must → docMatches d c.2 = true) ∧
      (c.1 = Occur.mustNot → docMatches d c.2 = false) := by
  intro c hc
  unfold docMatchesClauses docMatches at h
  by_cases hempty : (!(clausesEval d cs).1 && !(clausesEval d cs).2.2.2.1) = true
  · rw [if_pos hempty] at h; exact absurd h (by simp)
  · rw [if_neg hempty] at h
    simp only [Bool.and_eq_true] at h
    have h1 : (clausesEval d cs).2.1 = true := h.1.1
    have h2 : (clausesEval d cs).2.2.1 = false := by
      have := h.1.2
      simpa using this
    exact ⟨fun hm => (clausesEval_allMust d cs).mp h1 c hc hm,
      fun hm => (clausesEval_mustNot d cs).mp h2 c hc hm⟩

/-! ## Claim theorems -/

/-- Claim C10 (confirmed): for every query and `limit = 0`,
`query_places` returns the error `Invalid limit: 0` rather than an empty
result list; an `Ok` result (in particular an empty one) is only ever
produced for a positive limit. -/
theorem queryPlaces_zero_limit_rejected :
    (∀ (docs : List Doc) (rawScore : Doc → ℚ) (q : IndexQuery),
      queryPlaces docs rawScore q 0 = Except.error "Invalid limit: 0") ∧
    (∀ (docs : List Doc) (rawScore : Doc → ℚ) (q : IndexQuery) (limit : Nat)
      (res : List Doc), queryPlaces docs rawScore q limit = Except.ok res →
        0 < limit) := by
  constructor
  · intro docs rawScore q
    rfl
  · intro docs rawScore q limit res h
    by_contra hz
    have : limit = 0 := by omega
    subst this
    rw [queryPlaces] at h
    simp at h

/-- Witness for C10: instantiating the positive-limit direction at a
concrete successful query. -/
theorem queryPlaces_zero_limit_rejected_witness : 0 < 1 :=
  queryPlaces_zero_limit_rejected.2 [] (fun _ => 0) {} 1 [] rfl

/-- Claim C9 (confirmed): once the store transaction of a flow has
committed, failures of the index update, the index flush, or the
notification step never surface as an error of the flow — the flow
still returns success with the committed state; a store-level failure
leaves the state untouched and is surfaced as the flow's error.
`post_archive_places` returns `Ok` regardless of the index outcomes. -/
theorem flows_index_failures_not_surfaced :
    (∀ (σ P E : Type) (s s1 : σ) (p : P) (storeTx : σ → Except E (σ × P))
      (reindexAndFlush notify : P → Except String Unit),
      storeTx s = Except.ok (s1, p) →
        createPlaceFlow s storeTx reindexAndFlush notify = (s1, Except.ok p)) ∧
    (∀ (σ P E : Type) (s : σ) (e : E) (storeTx : σ → Except E (σ × P))
      (reindexAndFlush notify : P → Except String Unit),
      storeTx s = Except.error e →
        createPlaceFlow s storeTx reindexAndFlush notify = (s, Except.error e)) ∧
    (∀ (E : Type) (unindexResults : List (Except String Unit))
      (flushResult : Except String Unit),
      postArchivePlaces (E := E) unindexResults flushResult = Except.ok ()) ∧
    (∀ (σ E : Type) (s s1 : σ) (storeTx : σ → Except E σ)
      (unindexResults : List (Except String Unit)) (flushResult : Except String Unit),
      storeTx s = Except.ok s1 →
        archivePlacesFlow s storeTx unindexResults flushResult = (s1, Except.ok ())) ∧
    (∀ (σ E : Type) (s : σ) (e : E) (storeTx : σ → Except E σ)
      (unindexResults : List (Except String Unit)) (flushResult : Except String Unit),
      storeTx s = Except.error e →
        archivePlacesFlow s storeTx unindexResults flushResult = (s, Except.error e)) := by
  refine ⟨?_, ?_, ?_, ?_, ?_⟩
  · intro σ P E s s1 p storeTx reindexAndFlush notify h
    unfold createPlaceFlow
    rw [h]
  · intro σ P E s e storeTx reindexAndFlush notify h
    unfold createPlaceFlow
    rw [h]
  · intro E unindexResults flushResult
    unfold postArchivePlaces
    rfl
  · intro σ E s s1 storeTx unindexResults flushResult h
    unfold archivePlacesFlow postArchivePlaces
    rw [h]
  · intro σ E s e storeTx unindexResults flushResult h
    unfold archivePlacesFlow
    rw [h]

/-- Witness for C9: a committed store step with failing index and
notification steps still yields flow success. -/
theorem flows_index_failures_not_surfaced_witness :
    createPlaceFlow (σ := Nat) (P := Nat) (E := String) 0
      (fun n => Except.ok (n + 1, 42))
      (fun _ => Except.error "index down") (fun _ => Except.error "smtp down") =
      (1, Except.ok 42) :=
  flows_index_failures_not_surfaced.1 Nat Nat String 0 1 42
    (fun n => Except.ok (n + 1, 42))
    (fun _ => Except.error "index down") (fun _ => Except.error "smtp down") rfl

/-- Claim C3 (confirmed): in score-boosted mode the raw relevance score
`s` is transformed to `log2(1 + s) × boost(r)` where
`boost(r) = (r − MIN) / (0 − MIN)` for `r < 0` and
`boost(r) = 1 + 6 × (r − 0)` for `r ≥ 0`; hence `boost(0) = 1`,
`boost(MIN) = 0` and `boost(MAX) = 1 + 6 × MAX`.  (The source computes
in floating point; the model computes exactly.) -/
theorem tweakedScore_boost_formula :
    (∀ (s : ℝ) (r : ℚ),
      tweakedScore s r = Real.logb 2 (1 + s) * ((boostFactor r : ℚ) : ℝ)) ∧
    (∀ r : ℚ, r < 0 → boostFactor r = (r - avgRatingMin) / (0 - avgRatingMin)) ∧
    (∀ r : ℚ, 0 ≤ r → boostFactor r = 1 + 6 * (r - 0)) ∧
    boostFactor 0 = 1 ∧ boostFactor avgRatingMin = 0 ∧
    boostFactor avgRatingMax = 1 + 6 * avgRatingMax := by
  refine ⟨fun s r => rfl, ?_, ?_, ?_, ?_, ?_⟩
  · intro r hr
    rw [boostFactor, if_pos (by simpa [avgRatingDefault] using hr)]
    simp [avgRatingDefault]
  · intro r hr
    rw [boostFactor, if_neg (by rw [avgRatingDefault]; exact not_lt.mpr hr)]
    norm_num [ratingContextTotalCount, avgRatingDefault]
  · rw [boostFactor, if_neg (by norm_num [avgRatingDefault])]
    norm_num [ratingContextTotalCount, avgRatingDefault]
  · rw [boostFactor, if_pos (by norm_num [avgRatingDefault, avgRatingMin])]
    norm_num [avgRatingDefault, avgRatingMin]
  · rw [boostFactor, if_neg (by norm_num [avgRatingDefault, avgRatingMax])]
    norm_num [ratingContextTotalCount, avgRatingDefault, avgRatingMax]

/-- Witness for C3: the negative-rating and non-negative-rating branches
of the boost formula at concrete ratings. -/
theorem tweakedScore_boost_formula_witness :
    boostFactor (-1/2) = ((-1/2 : ℚ) - avgRatingMin) / (0 - avgRatingMin) ∧
    boostFactor 1 = 1 + 6 * ((1 : ℚ) - 0) :=
  ⟨tweakedScore_boost_formula.2.1 (-1/2) (by norm_num),
    tweakedScore_boost_formula.2.2.1 1 (by norm_num)⟩

theorem textAndTagsQueries_eq_nil_iff (q : IndexQuery) :
    textAndTagsQueries q = [] ↔
      (q.textTags = [] ∧ (q.text = none ∨ q.hashTags = [])) := by
  unfold textAndTagsQueries
  rcases htext : q.text with _ | t
  · simp
  · by_cases hh : q.hashTags.isEmpty <;> by_cases ht : q.textTags.isEmpty <;>
      simp_all [List.isEmpty_iff]

theorem buildQuery_mode_rating_iff (q : IndexQuery) :
    (buildQuery q).2 = TopDocsMode.rating ↔ textAndTagsQueries q = [] := by
  unfold buildQuery
  by_cases h : (textAndTagsQueries q).isEmpty
  · simp [h, List.isEmpty_iff.mp h]
  · simp only [h, Bool.false_eq_true, if_false]
    constructor
    · intro hcontra; exact absurd hcontra (by simp)
    · intro hnil; exact absurd (List.isEmpty_iff.mpr hnil) (by simp [h])

/-- Claim C2 (corrected): `query_places` sorts strictly by the
`total_rating` fast field exactly when the text/text-tag `Should`
subquery is empty, i.e. when the query has no text tags and either no
free text or no hash tags; when the subquery is non-empty it is
appended as mandatory and results are ranked by the boosted relevance
score.  In particular a query whose only search clause is free text
(no hash tags, no text tags) pushes the text clause directly as
mandatory and is ranked by rating — not by boosted relevance as the
claim stated. -/
theorem buildQuery_ranking_modes :
    (∀ q : IndexQuery, (buildQuery q).2 = TopDocsMode.rating ↔
      (q.textTags = [] ∧ (q.text = none ∨ q.hashTags = []))) ∧
    (∀ q : IndexQuery, (buildQuery q).2 = TopDocsMode.scoreBoostedByRating →
      (buildQuery q).1 =
        baseClauses q ++ [(Occur.must, Query.boolQ (textAndTagsQueries q))]) ∧
    (∀ (docs : List Doc) (rawScore : Doc → ℚ) (q : IndexQuery) (limit : Nat)
      (res : List Doc), (buildQuery q).2 = TopDocsMode.rating →
      queryPlaces docs rawScore q limit = Except.ok res →
      List.Sorted docRatingGe res) := by
  refine ⟨?_, ?_, ?_⟩
  · intro q
    rw [buildQuery_mode_rating_iff, textAndTagsQueries_eq_nil_iff]
  · intro q hq
    unfold buildQuery at hq ⊢
    by_cases h : (textAndTagsQueries q).isEmpty
    · rw [if_pos h] at hq; exact absurd hq (by simp)
    · rw [if_neg h]
  · intro docs rawScore q limit res hmode h
    unfold queryPlaces at h
    by_cases hl : limit == 0
    · simp [hl] at h
    · simp only [hl, Bool.false_eq_true, if_false] at h
      rw [hmode] at h
      simp only [Except.ok.injEq] at h
      subst h
      exact (List.sorted_insertionSort docRatingGe _).sublist (List.take_sublist _ _)

/-- Witness for C2: a concrete rating-mode query whose successful result
is sorted by rating. -/
theorem buildQuery_ranking_modes_witness :
    List.Sorted docRatingGe ([] : List Doc) :=
  buildQuery_ranking_modes.2.2 [] (fun _ => 0) {} 1 [] rfl rfl

/-- Counterexample for C2: a query whose only search clause is free text
(no hash tags, no text tags) is ranked in rating mode, not in the
score-boosted mode the claim requires. -/
theorem buildQuery_free_text_only_is_rating_mode :
    (buildQuery { text := some "cafe" }).2 = TopDocsMode.rating ∧
      TopDocsMode.rating ≠ TopDocsMode.scoreBoostedByRating :=
  ⟨rfl, by decide⟩

/-! ## Claim C8: bbox clauses and the antimeridian example -/

theorem roundHalfEven_eq_down {q : ℚ} {f : Int} (h1 : (f : ℚ) ≤ q)
    (h2 : q < f + 1) (h3 : q - f < 1/2) : roundHalfEven q = f := by
  have hf : ⌊q⌋ = f := Int.floor_eq_iff.mpr ⟨h1, by exact_mod_cast h2⟩
  unfold roundHalfEven
  rw [hf, if_pos h3]

theorem roundHalfEven_eq_up {q : ℚ} {f : Int} (h1 : (f : ℚ) ≤ q)
    (h2 : q < f + 1) (h3 : 1/2 < q - f) : roundHalfEven q = f + 1 := by
  have hf : ⌊q⌋ = f := Int.floor_eq_iff.mpr ⟨h1, by exact_mod_cast h2⟩
  unfold roundHalfEven
  rw [hf, if_neg (not_lt.mpr h3.le), if_pos h3]

theorem latDegToRaw_zero : latDegToRaw 0 = 0 := by
  unfold latDegToRaw
  exact roundHalfEven_eq_down (f := 0) (by norm_num) (by norm_num) (by norm_num)

theorem latDegToRaw_five : latDegToRaw 5 = 466034 := by
  unfold latDegToRaw
  exact roundHalfEven_eq_up (f := 466033) (by norm_num) (by norm_num) (by norm_num)

theorem latDegToRaw_ten : latDegToRaw 10 = 932068 := by
  unfold latDegToRaw
  exact roundHalfEven_eq_up (f := 932067) (by norm_num) (by norm_num) (by norm_num)

theorem lngDegToRaw_pos170 : lngDegToRaw 170 = 7922574 := by
  unfold lngDegToRaw
  exact roundHalfEven_eq_down (f := 7922574) (by norm_num) (by norm_num) (by norm_num)

theorem lngDegToRaw_neg170 : lngDegToRaw (-170) = -7922574 := by
  unfold lngDegToRaw
  have h := roundHalfEven_eq_up (q := (-170 : ℚ) * 16777216 / 360) (f := -7922575)
    (by norm_num) (by norm_num) (by norm_num)
  rw [h]
  decide

theorem lngDegToRaw_pos175 : lngDegToRaw 175 = 8155591 := by
  unfold lngDegToRaw
  exact roundHalfEven_eq_down (f := 8155591) (by norm_num) (by norm_num) (by norm_num)

theorem lngDegToRaw_zero : lngDegToRaw 0 = 0 := by
  unfold lngDegToRaw
  exact roundHalfEven_eq_down (f := 0) (by norm_num) (by norm_num) (by norm_num)

/-- The wrap-around example bbox `{sw:(0,170), ne:(10,-170)}`. -/
def c8Bbox : MapBboxRaw :=
  { sw := { lat := latDegToRaw 0, lng := lngDegToRaw 170 },
    ne := { lat := latDegToRaw 10, lng := lngDegToRaw (-170) } }

/-- A query carrying only the wrap-around example bbox. -/
def c8Query : IndexQuery := { includeBbox := some c8Bbox }

/-- A place at `(5, 175)` (inside the wrap-around bbox). -/
def c8DocInside : Doc := { id := "x", lat := latDegToRaw 5, lng := lngDegToRaw 175 }

/-- A place at `(5, 0)` (outside the wrap-around bbox). -/
def c8DocOutside : Doc := { id := "y", lat := latDegToRaw 5, lng := lngDegToRaw 0 }

theorem includeBboxClauses_mem_buildQuery {q : IndexQuery} {B : MapBboxRaw}
    (hB : q.includeBbox = some B) {c : Occur × Query}
    (hc : c ∈ includeBboxClauses B) : c ∈ (buildQuery q).1 := by
  have hbase : c ∈ baseClauses q := by
    unfold baseClauses
    rw [hB]
    exact List.mem_append_left _ (List.mem_append_left _
      (List.mem_append_left _ (List.mem_append_right _ hc)))
  unfold buildQuery
  by_cases h : (textAndTagsQueries q).isEmpty
  · rw [if_pos h]; exact hbase
  · rw [if_neg h]; exact List.mem_append_left _ hbase

/-- Claim C8 (confirmed): for a query with an include bbox `B` the
compositor emits a mandatory inclusive range on latitude, a mandatory
inclusive range on longitude when `sw.lng ≤ ne.lng`, and a
mandatory-not clause over the open range `(ne.lng, sw.lng)` when
`sw.lng > ne.lng`; with `B = {sw:(0,170), ne:(10,-170)}` a place at
`(5,175)` matches the composed query and a place at `(5,0)` does
not. -/
theorem buildQuery_include_bbox_clauses :
    (∀ (q : IndexQuery) (B : MapBboxRaw), q.includeBbox = some B →
      ((Occur.must, Query.rangeIncl Field.lat B.sw.lat B.ne.lat) ∈ (buildQuery q).1 ∧
       (B.sw.lng ≤ B.ne.lng →
         (Occur.must, Query.rangeIncl Field.lng B.sw.lng B.ne.lng) ∈ (buildQuery q).1) ∧
       (B.ne.lng < B.sw.lng →
         (Occur.mustNot, Query.rangeExcl Field.lng B.ne.lng B.sw.lng) ∈ (buildQuery q).1))) ∧
    docMatchesClauses c8DocInside (buildQuery c8Query).1 = true ∧
    docMatchesClauses c8DocOutside (buildQuery c8Query).1 = false := by
  refine ⟨?_, ?_, ?_⟩
  · intro q B hB
    refine ⟨includeBboxClauses_mem_buildQuery hB ?_,
      fun hreg => includeBboxClauses_mem_buildQuery hB ?_,
      fun hwrap => includeBboxClauses_mem_buildQuery hB ?_⟩
    · exact List.mem_cons_self _ _
    · unfold includeBboxClauses
      rw [if_pos hreg]
      exact List.mem_cons_of_mem _ (List.mem_singleton.mpr rfl)
    · unfold includeBboxClauses
      rw [if_neg (not_le.mpr hwrap)]
      exact List.mem_cons_of_mem _ (List.mem_singleton.mpr rfl)
  · simp only [c8Query, c8Bbox, c8DocInside, latDegToRaw_zero, latDegToRaw_five,
      latDegToRaw_ten, lngDegToRaw_pos170, lngDegToRaw_neg170, lngDegToRaw_pos175]
    decide
  · simp only [c8Query, c8Bbox, c8DocOutside, latDegToRaw_zero, latDegToRaw_five,
      latDegToRaw_ten, lngDegToRaw_pos170, lngDegToRaw_neg170, lngDegToRaw_zero]
    decide

/-- Witness for C8: the clause-shape part instantiated at the concrete
wrap-around bbox query, with the wrap hypothesis discharged. -/
theorem buildQuery_include_bbox_clauses_witness :
    (Occur.must, Query.rangeIncl Field.lat c8Bbox.sw.lat c8Bbox.ne.lat) ∈
        (buildQuery c8Query).1 ∧
      (Occur.mustNot, Query.rangeExcl Field.lng c8Bbox.ne.lng c8Bbox.sw.lng) ∈
        (buildQuery c8Query).1 := by
  have h := buildQuery_include_bbox_clauses.1 c8Query c8Bbox rfl
  refine ⟨h.1, h.2.2 ?_⟩
  show c8Bbox.ne.lng < c8Bbox.sw.lng
  simp only [c8Bbox, lngDegToRaw_pos170, lngDegToRaw_neg170]
  decide

/-! ## Claim C6: `replace_user_token` -/

theorem replaceUserToken_ok {s : SqlStore} {t : UserToken} {uid : Int}
    (h : resolveUserIdByEmail s t.emailNonce.email = Except.ok uid) :
    replaceUserToken s t = Except.ok
      ({ s with
          userTokens := (s.userTokens.filter (fun r => !(r.userId == uid))) ++
            [{ id := s.nextTokenId, userId := uid,
               expiresAt := t.expiresAt, nonce := t.emailNonce.nonce }],
          nextTokenId := s.nextTokenId + 1 }, t.emailNonce) := by
  unfold replaceUserToken
  rw [h]
  rfl

theorem tokens_of_user_after_replace (l : List TokenRow) (uid : Int)
    (row : TokenRow) (hrow : row.userId = uid) :
    (((l.filter (fun r => !(r.userId == uid))) ++ [row]).filter
      (fun r => r.userId == uid)).map (fun r => (r.nonce, r.expiresAt)) =
      [(row.nonce, row.expiresAt)] := by
  rw [List.filter_append]
  have h1 : (l.filter (fun r => !(r.userId == uid))).filter
      (fun r => r.userId == uid) = [] := by
    rw [List.filter_eq_nil_iff]
    intro a ha
    have := (List.mem_filter.mp ha).2
    simp at this
    simp [this]
  rw [h1]
  simp [hrow]

/-- Claim C6 (confirmed, spec-modelled DDL): for a token whose user
exists, `replace_user_token(t)` succeeds and leaves `t` as the sole
live token of its user, for any prior token state; in particular
calling it twice in sequence succeeds both times and leaves exactly one
token equal to `t`. -/
theorem replaceUserToken_sole_live_token :
    ∀ (s : SqlStore) (t : UserToken) (uid : Int),
      resolveUserIdByEmail s t.emailNonce.email = Except.ok uid →
      ∃ s1 s2,
        replaceUserToken s t = Except.ok (s1, t.emailNonce) ∧
        (s1.userTokens.filter (fun r => r.userId == uid)).map
          (fun r => (r.nonce, r.expiresAt)) = [(t.emailNonce.nonce, t.expiresAt)] ∧
        replaceUserToken s1 t = Except.ok (s2, t.emailNonce) ∧
        (s2.userTokens.filter (fun r => r.userId == uid)).map
          (fun r => (r.nonce, r.expiresAt)) = [(t.emailNonce.nonce, t.expiresAt)] := by
  intro s t uid h
  have h1 := replaceUserToken_ok h
  set s1 : SqlStore :=
    { s with
      userTokens := (s.userTokens.filter (fun r => !(r.userId == uid))) ++
        [{ id := s.nextTokenId, userId := uid,
           expiresAt := t.expiresAt, nonce := t.emailNonce.nonce }],
      nextTokenId := s.nextTokenId + 1 } with hs1
  have hres1 : resolveUserIdByEmail s1 t.emailNonce.email = Except.ok uid := h
  have h2 := replaceUserToken_ok hres1
  refine ⟨s1, _, h1, ?_, h2, ?_⟩
  · exact tokens_of_user_after_replace _ uid _ rfl
  · exact tokens_of_user_after_replace _ uid _ rfl

/-- A concrete store with one user and one stale token, for the C6
witness. -/
def c6Store : SqlStore :=
  { users := [{ id := 1, email := "scout@example.org" }],
    userTokens := [{ id := 5, userId := 1, expiresAt := 10, nonce := "old" }],
    nextTokenId := 6 }

/-- A concrete replacement token for the C6 witness. -/
def c6Token : UserToken :=
  { emailNonce := { email := "scout@example.org", nonce := "fresh" }, expiresAt := 99 }

/-- Witness for C6: the double-replacement property at a concrete store
whose user already holds a different token. -/
theorem replaceUserToken_sole_live_token_witness :
    ∃ s1 s2,
      replaceUserToken c6Store c6Token = Except.ok (s1, c6Token.emailNonce) ∧
      (s1.userTokens.filter (fun r => r.userId == 1)).map
        (fun r => (r.nonce, r.expiresAt)) =
          [(c6Token.emailNonce.nonce, c6Token.expiresAt)] ∧
      replaceUserToken s1 c6Token = Except.ok (s2, c6Token.emailNonce) ∧
      (s2.userTokens.filter (fun r => r.userId == 1)).map
        (fun r => (r.nonce, r.expiresAt)) =
          [(c6Token.emailNonce.nonce, c6Token.expiresAt)] :=
  replaceUserToken_sole_live_token c6Store c6Token 1 rfl

/-! ## Claim C4: `create_or_update_place` with `rev > 0` -/

/-- A store holding one place with uid `p` and current-revision pointer
`5`. -/
def c4Store : SqlStore := { places := [{ id := 1, uid := "p", rev := 5 }] }

/-- A candidate revision for place `p` with `rev = 7` (the pointer `5`
does not equal `7 − 1`). -/
def c4Entry : Entry := { uid := "p", version := 7 }

/-- The store produced by `create_entry` on the mismatched candidate:
the revision row is inserted, the pointer is left at `5`. -/
def c4StoreAfter : SqlStore :=
  { places := [{ id := 1, uid := "p", rev := 5 }],
    placeRevs := [{ id := 1, placeId := 1, rev := 7, createdAt := 0,
                    createdBy := none, status := statusCreated, payload := {} }],
    revLogs := [{ placeRevId := 1, status := statusCreated, createdAt := 0,
                  createdBy := none, context := none, notes := some "created" }],
    nextRevId := 2 }

/-- Counterexample for C4: a candidate with `rev = 7` against a place
whose pointer is `5` does not fail with `Conflict` — `create_entry`
succeeds, inserts the revision row, and leaves the pointer
unchanged. -/
theorem createEntry_rev_mismatch_no_conflict :
    createEntry c4Store c4Entry = Except.ok c4StoreAfter ∧
    c4StoreAfter.places = c4Store.places ∧
    c4StoreAfter.placeRevs.length = c4Store.placeRevs.length + 1 :=
  ⟨rfl, rfl, rfl⟩

theorem places_map_update_id {s : SqlStore} {e : Entry}
    (hmismatch : ∀ p ∈ s.places, p.uid = e.uid → p.rev ≠ (e.version : Int) - 1) :
    s.places.map (fun p =>
      if p.uid == e.uid && p.rev == (e.version : Int) - 1 then
        { p with rev := (e.version : Int) }
      else p) = s.places := by
  have : ∀ p ∈ s.places,
      (if p.uid == e.uid && p.rev == (e.version : Int) - 1 then
        { p with rev := (e.version : Int) }
      else p) = id p := by
    intro p hp
    rcases hu : p.uid == e.uid with _ | _
    · simp [hu]
    · have : p.rev ≠ (e.version : Int) - 1 := hmismatch p hp (by simpa using hu)
      simp [hu, this]
  rw [List.map_congr_left this, List.map_id]

/-- The `RevPayload` built from an `Entry` by `new_place_rev_from_entry`. -/
def payloadOfEntry (e : Entry) : RevPayload :=
  { title := e.title, description := e.description, lat := e.lat,
    lng := e.lng, street := e.street, zip := e.zip, city := e.city,
    country := e.country, email := e.email, phone := e.phone,
    homepage := e.homepage, license := e.license,
    imageUrl := e.imageUrl, imageLinkUrl := e.imageLinkUrl }

/-- The `NewPlaceRev` built from a non-archived `Entry`. -/
def nprOfEntry (e : Entry) (pid : Int) : NewPlaceRev :=
  { placeId := pid, rev := (e.version : Int), createdAt := e.createdAt,
    createdBy := none, status := statusCreated, payload := payloadOfEntry e }

theorem newPlaceRevFromEntry_mismatch {s : SqlStore} {e : Entry} {pid : Int}
    (hv : 0 < e.version) (harch : e.archivedAt = none)
    (hmismatch : ∀ p ∈ s.places, p.uid = e.uid → p.rev ≠ (e.version : Int) - 1)
    (hpid : resolvePlaceId s e.uid = Except.ok pid) :
    newPlaceRevFromEntry s e =
      Except.ok (s, nprOfEntry e pid, mergeIdsIntoTags e.categories e.tags) := by
  have hvz : (e.version == 0) = false := by
    simp only [beq_eq_false_iff_ne, ne_eq]
    omega
  unfold newPlaceRevFromEntry
  rw [hvz]
  have hseq : ({ s with places := s.places.map (fun p =>
      if p.uid == e.uid && p.rev == (e.version : Int) - 1 then
        { p with rev := (e.version : Int) }
      else p) } : SqlStore) = s := by
    rw [places_map_update_id hmismatch]
  simp only [Bool.false_eq_true, if_false, hseq, hpid, harch]
  rfl

/-- Claim C4 (corrected): for a candidate revision with `rev.rev > 0`,
`create_or_update_place` fails `NotFound` when no place with the uid
exists; when the place exists but its pointer differs from
`rev.rev − 1` it raises no `Conflict` — the pointer update silently
affects zero rows (a debug-only assertion) and the revision row is
inserted anyway, without advancing the pointer — and when a revision
row with that `rev` already exists the insert surfaces the database
error as `Other`. -/
theorem createEntry_rev_positive_behaviour :
    (∀ (s : SqlStore) (e : Entry), 0 < e.version →
      (∀ p ∈ s.places, p.uid ≠ e.uid) →
      createEntry s e = Except.error (StoreErr.repo RepoError.notFound)) ∧
    (∀ (s : SqlStore) (e : Entry) (pid : Int), 0 < e.version →
      e.archivedAt = none →
      (∀ p ∈ s.places, p.uid = e.uid → p.rev ≠ (e.version : Int) - 1) →
      resolvePlaceId s e.uid = Except.ok pid →
      (∀ r ∈ s.placeRevs, ¬(r.placeId = pid ∧ r.rev = (e.version : Int))) →
      ∃ s1, createEntry s e = Except.ok s1 ∧ s1.places = s.places ∧
        s1.placeRevs.length = s.placeRevs.length + 1) ∧
    (∀ (s : SqlStore) (e : Entry) (pid : Int), 0 < e.version →
      e.archivedAt = none →
      (∀ p ∈ s.places, p.uid = e.uid → p.rev ≠ (e.version : Int) - 1) →
      resolvePlaceId s e.uid = Except.ok pid →
      (∃ r ∈ s.placeRevs, r.placeId = pid ∧ r.rev = (e.version : Int)) →
      createEntry s e = Except.error (StoreErr.repo RepoError.other)) := by
  refine ⟨?_, ?_, ?_⟩
  · intro s e hv huid
    have hvz : (e.version == 0) = false := by
      simp only [beq_eq_false_iff_ne, ne_eq]
      omega
    have hnone : (s.places.map (fun p =>
        if p.uid == e.uid && p.rev == (e.version : Int) - 1 then
          { p with rev := (e.version : Int) }
        else p)).find? (fun p => p.uid == e.uid) = none := by
      rw [List.find?_eq_none]
      intro p hp
      rcases List.mem_map.mp hp with ⟨p0, hp0, hfp⟩
      have huidp : p.uid = p0.uid := by
        by_cases hc : (p0.uid == e.uid && p0.rev == (e.version : Int) - 1) = true
        · rw [if_pos hc] at hfp; rw [← hfp]
        · rw [if_neg (by simpa using hc)] at hfp; rw [← hfp]
      simp [huidp, huid p0 hp0]
    unfold createEntry newPlaceRevFromEntry resolvePlaceId
    rw [hvz]
    simp only [Bool.false_eq_true, if_false, hnone]
  · intro s e pid hv harch hmismatch hpid hnodup
    have hfirst : s.placeRevs.find?
        (fun r => r.placeId == pid && r.rev == (e.version : Int)) = none := by
      rw [List.find?_eq_none]
      intro r hr
      have := hnodup r hr
      simp only [not_and] at this
      by_cases h1 : r.placeId = pid
      · simp [h1, this h1]
      · simp [h1]
    have hany : (s.placeRevs.any
        (fun r => r.placeId == pid && r.rev == (e.version : Int))) = false := by
      rw [List.any_eq_false]
      intro r hr
      have := hnodup r hr
      simp only [not_and] at this
      by_cases h1 : r.placeId = pid
      · simp [h1, this h1]
      · simp [h1]
    unfold createEntry
    rw [newPlaceRevFromEntry_mismatch hv harch hmismatch hpid]
    dsimp only [nprOfEntry]
    rw [if_neg (by simp), if_neg (by simp [hany])]
    unfold resolvePlaceRevId
    dsimp only
    rw [List.find?_append, hfirst]
    simp only [Option.none_or, List.find?_singleton]
    rw [if_pos (by simp)]
    exact ⟨_, rfl, rfl, by simp⟩
  · intro s e pid hv harch hmismatch hpid hdup
    have hany : (s.placeRevs.any
        (fun r => r.placeId == pid && r.rev == (e.version : Int))) = true := by
      rw [List.any_eq_true]
      rcases hdup with ⟨r, hr, h1, h2⟩
      exact ⟨r, hr, by simp [h1, h2]⟩
    unfold createEntry
    rw [newPlaceRevFromEntry_mismatch hv harch hmismatch hpid]
    dsimp only [nprOfEntry]
    rw [if_neg (by simp), if_pos (by simp [hany])]

/-- Witness for C4: the mismatch case instantiated at the concrete store
with pointer `5` and candidate `rev = 7`. -/
theorem createEntry_rev_positive_behaviour_witness :
    ∃ s1, createEntry c4Store c4Entry = Except.ok s1 ∧
      s1.places = c4Store.places ∧
      s1.placeRevs.length = c4Store.placeRevs.length + 1 :=
  createEntry_rev_positive_behaviour.2.1 c4Store c4Entry 1 (by decide) rfl
    (by decide) rfl (by simp [c4Store])

/-! ## Claim C5: `most_popular_entry_tags` -/

theorem charListLe_total : ∀ xs ys : List Char,
    charListLe xs ys = true ∨ charListLe ys xs = true := by
  intro xs
  induction xs with
  | nil => intro ys; exact Or.inl rfl
  | cons a as2 ih =>
    intro ys
    cases ys with
    | nil => exact Or.inr rfl
    | cons b bs =>
      by_cases hab : a < b
      · left; simp [charListLe, hab]
      · by_cases hba : b < a
        · right; simp [charListLe, hba]
        · rcases ih bs with h | h
          · left; simp [charListLe, hab, hba, h]
          · right; simp [charListLe, hab, hba, h]

theorem charListLe_trans : ∀ xs ys zs : List Char,
    charListLe xs ys = true → charListLe ys zs = true →
    charListLe xs zs = true := by
  intro xs
  induction xs with
  | nil => intro ys zs h1 h2; rfl
  | cons a as2 ih =>
    intro ys zs h1 h2
    cases ys with
    | nil => simp [charListLe] at h1
    | cons b bs =>
      cases zs with
      | nil => simp [charListLe] at h2
      | cons c cs =>
        by_cases hab : a < b
        · by_cases hbc : b < c
          · simp [charListLe, lt_trans hab hbc]
          · have hcb : ¬(c < b) := by
              intro hcb
              simp [charListLe, hbc, hcb] at h2
            have hbc2 : b = c := le_antisymm (not_lt.mp hcb) (not_lt.mp hbc)
            simp [charListLe, hbc2 ▸ hab]
        · have hba : ¬(b < a) := by
            intro hba
            simp [charListLe, hab, hba] at h1
          have hab2 : a = b := le_antisymm (not_lt.mp hba) (not_lt.mp hab)
          by_cases hbc : b < c
          · simp [charListLe, hab2 ▸ hbc]
          · have hcb : ¬(c < b) := by
              intro hcb
              simp [charListLe, hbc, hcb] at h2
            have hbc2 : b = c := le_antisymm (not_lt.mp hcb) (not_lt.mp hbc)
            have h1r : charListLe as2 bs = true := by
              simpa [charListLe, hab, hba] using h1
            have h2r : charListLe bs cs = true := by
              simpa [charListLe, hbc, hcb] using h2
            have hac : ¬(a < c) := hbc2 ▸ hab
            have hca : ¬(c < a) := fun hca => hba (hbc2 ▸ hca)
            simp [charListLe, hac, hca, ih bs cs h1r h2r]

instance : IsTotal (String × Nat) tagFreqRel :=
  ⟨fun a b => by
    rcases lt_trichotomy a.2 b.2 with h | h | h
    · exact Or.inr (Or.inl h)
    · rcases charListLe_total a.1.toList b.1.toList with hc | hc
      · exact Or.inl (Or.inr ⟨h, hc⟩)
      · exact Or.inr (Or.inr ⟨h.symm, hc⟩)
    · exact Or.inl (Or.inl h)⟩

instance : IsTrans (String × Nat) tagFreqRel :=
  ⟨fun a b c hab hbc => by
    rcases hab with h1 | ⟨h1, h1le⟩ <;> rcases hbc with h2 | ⟨h2, h2le⟩
    · exact Or.inl (lt_trans h2 h1)
    · exact Or.inl (h2 ▸ h1)
    · exact Or.inl (h1 ▸ h2)
    · exact Or.inr ⟨h1.trans h2, charListLe_trans _ _ _ h1le h2le⟩⟩

theorem bool_eq_of_iff {a b : Bool} (h : a = true ↔ b = true) : a = b := by
  cases a <;> cases b <;> simp_all

theorem qualifyingRevIds_contains (s : SqlStore) (i : Int) :
    ((qualifyingRevIds s).contains i) =
      s.placeRevs.any (fun r =>
        r.id == i && (decide (0 < r.status)) &&
          s.places.any (fun p => p.id == r.placeId && p.rev == r.rev)) := by
  apply bool_eq_of_iff
  simp only [qualifyingRevIds, List.contains_iff_exists_mem_beq, List.mem_map,
    List.mem_filter, List.any_eq_true, Bool.and_eq_true, beq_iff_eq,
    decide_eq_true_eq, gt_iff_lt]
  constructor
  · rintro ⟨j, ⟨r, ⟨hr, hcur, hst⟩, hid⟩, hbeq⟩
    refine ⟨r, hr, ⟨?_, hst⟩, ?_⟩
    · rw [hid]; exact hbeq.symm
    · simpa using hcur
  · rintro ⟨r, hr, ⟨hid, hst⟩, hcur⟩
    refine ⟨r.id, ⟨r, ⟨hr, by simpa using hcur, hst⟩, rfl⟩, ?_⟩
    rw [hid]

/-- Claim C5 (corrected): `most_popular_tags` aggregates tag usage over
exactly the current revisions whose status is *strictly greater than*
`created` (`status > 0` in the emitted SQL — revisions with
`status = created` are excluded, contrary to the claim), filters the
counts by the bounds inclusively, and orders by count descending then
tag ascending.  Pagination is applied only for a zero offset (where the
limit, if any, truncates the list); for a positive offset the emitted
SQL places `OFFSET` before `LIMIT`, which the database rejects, so the
call fails with `Other` and paginates nothing. -/
theorem mostPopularEntryTags_correct :
    (∀ (s : SqlStore) (minCount maxCount offset limit : Option Nat),
      offset.getD 0 = 0 →
      mostPopularEntryTags s minCount maxCount offset limit =
        Except.ok (mostPopularTagsSpec (fun st => 0 < st) s
          minCount maxCount offset limit)) ∧
    (∀ (s : SqlStore) (minCount maxCount offset limit : Option Nat),
      0 < offset.getD 0 →
      mostPopularEntryTags s minCount maxCount offset limit =
        Except.error RepoError.other) ∧
    (∀ (s : SqlStore) (minCount maxCount offset limit : Option Nat)
      (res : List (String × Nat)),
      mostPopularEntryTags s minCount maxCount offset limit = Except.ok res →
      List.Sorted tagFreqRel res) := by
  refine ⟨?_, ?_, ?_⟩
  · intro s minCount maxCount offset limit hoff
    have hrows : s.revTags.filter (fun t => (qualifyingRevIds s).contains t.placeRevId) =
        s.revTags.filter (fun t =>
          s.placeRevs.any (fun r =>
            r.id == t.placeRevId && (fun st => decide (0 < st)) r.status &&
              s.places.any (fun p => p.id == r.placeId && p.rev == r.rev))) := by
      apply List.filter_congr
      intro t _
      exact qualifyingRevIds_contains s t.placeRevId
    unfold mostPopularEntryTags mostPopularTagsSpec
    rw [hrows, hoff]
    simp only [gt_iff_lt, Nat.lt_irrefl, if_false, List.drop_zero]
    cases limit <;> rfl
  · intro s minCount maxCount offset limit hoff
    unfold mostPopularEntryTags
    rw [if_pos hoff]
  · intro s minCount maxCount offset limit res h
    unfold mostPopularEntryTags at h
    have hsorted := List.sorted_insertionSort tagFreqRel
      (((s.revTags.filter (fun t => (qualifyingRevIds s).contains t.placeRevId)).map
          (fun t => t.tag)).dedup.map
        (fun tag => (tag, (s.revTags.filter
          (fun t => (qualifyingRevIds s).contains t.placeRevId)).countP
            (fun t => t.tag == tag))) |>.filter
        (fun p => tagCountBoundsOk minCount maxCount p.2))
    by_cases hoff : offset.getD 0 > 0
    · rw [if_pos hoff] at h
      exact absurd h (by simp)
    · rw [if_neg hoff] at h
      cases limit with
      | none =>
        simp only [Except.ok.injEq] at h
        subst h
        exact hsorted
      | some l =>
        simp only [Except.ok.injEq] at h
        subst h
        exact hsorted.sublist (List.take_sublist _ _)

/-- A store holding one place whose current revision has
`status = created` and carries tag `t1`, for the C5 counterexample. -/
def c5Store : SqlStore :=
  { places := [{ id := 1, uid := "p", rev := 0 }],
    placeRevs := [{ id := 1, placeId := 1, rev := 0, createdAt := 0,
                    createdBy := none, status := statusCreated, payload := {} }],
    revTags := [{ placeRevId := 1, tag := "t1" }] }

/-- Witness for C5: the zero-offset equality and the positive-offset
failure instantiated at the concrete store. -/
theorem mostPopularEntryTags_correct_witness :
    mostPopularEntryTags c5Store none none none (some 5) =
      Except.ok (mostPopularTagsSpec (fun st => 0 < st) c5Store
        none none none (some 5)) ∧
    mostPopularEntryTags c5Store none none (some 2) none =
      Except.error RepoError.other :=
  ⟨mostPopularEntryTags_correct.1 c5Store none none none (some 5) rfl,
    mostPopularEntryTags_correct.2.1 c5Store none none (some 2) none (by decide)⟩

/-- Counterexample for C5: on a store whose only current revision has
`status = created`, the source's aggregation (status > 0) returns no
tags while the claimed aggregation (status ≥ 0, including `created`)
returns the tag with count 1; and with offset 1 the call errors instead
of returning the claimed paginated list. -/
theorem mostPopularEntryTags_excludes_created :
    mostPopularEntryTags c5Store none none none none = Except.ok [] ∧
    mostPopularTagsSpec (fun st => 0 ≤ st) c5Store none none none none = [("t1", 1)] ∧
    mostPopularEntryTags c5Store none none none none ≠
      Except.ok (mostPopularTagsSpec (fun st => 0 ≤ st) c5Store none none none none) ∧
    mostPopularEntryTags c5Store none none (some 1) none = Except.error RepoError.other := by
  refine ⟨rfl, rfl, fun hcontra => ?_, rfl⟩
  have h2 : ([] : List (String × Nat)) = [("t1", 1)] := Except.ok.inj hcontra
  exact absurd h2 (by decide)

/-! ## Claim C1: `archive_entries` -/

/-- The status-log row appended for an archived revision. -/
def archLogRow (archivedAt : Int) (i : Int) : RevLogRow :=
  { placeRevId := i, status := statusArchived, createdAt := archivedAt,
    createdBy := none, context := none, notes := some "archived" }

theorem int_contains_iff (l : List Int) (i : Int) : l.contains i = true ↔ i ∈ l := by
  simp [List.contains_iff_exists_mem_beq]

/-- The store after one successful `archive_entries` loop iteration. -/
def archStepStore (archivedAt : Int) (s : SqlStore) (i : Int) : SqlStore :=
  { s with
    placeRevs := s.placeRevs.map (fun r =>
      if r.id == i && !(r.status == statusArchived) then
        { r with status := statusArchived } else r),
    revLogs := s.revLogs ++ [archLogRow archivedAt i] }

theorem filter_unique_unarchived (i : Int) :
    ∀ (l : List PlaceRevRow), (l.map (fun r => r.id)).Nodup →
    ∀ r₀ ∈ l, r₀.id = i → r₀.status ≠ statusArchived →
    l.filter (fun r => r.id == i && !(r.status == statusArchived)) = [r₀] := by
  intro l
  induction l with
  | nil => intro _ r₀ h; exact absurd h (List.not_mem_nil r₀)
  | cons a l ih =>
    intro hnd r₀ hr₀ hid hst
    have hnd1 : a.id ∉ l.map (fun r => r.id) := (List.nodup_cons.mp hnd).1
    have hnd2 : (l.map (fun r => r.id)).Nodup := (List.nodup_cons.mp hnd).2
    rcases hr₀ with _ | ⟨_, hmem⟩
    · have hpa : (a.id == i && !(a.status == statusArchived)) = true := by
        simp [hid, hst]
      have hrest : l.filter (fun r => r.id == i && !(r.status == statusArchived)) = [] := by
        rw [List.filter_eq_nil_iff]
        intro r hr hpr
        rw [Bool.and_eq_true] at hpr
        have : r.id = i := by simpa using hpr.1
        exact hnd1 (hid ▸ this ▸ List.mem_map_of_mem (fun r => r.id) hr)
      simp [List.filter_cons, hpa, hrest]
    · have hai : a.id ≠ i := by
        intro hai
        exact hnd1 (hai ▸ hid ▸ List.mem_map_of_mem (fun r => r.id) hmem)
      have hpa : (a.id == i && !(a.status == statusArchived)) = false := by
        simp [hai]
      simp [List.filter_cons, hpa, ih hnd2 r₀ hmem hid hst]

theorem filter_id_length_le_one (i : Int) :
    ∀ (l : List PlaceRevRow), (l.map (fun r => r.id)).Nodup →
    (l.filter (fun r => r.id == i && !(r.status == statusArchived))).length ≤ 1 := by
  intro l
  induction l with
  | nil => intro _; simp
  | cons a l ih =>
    intro hnd
    have hnd1 : a.id ∉ l.map (fun r => r.id) := (List.nodup_cons.mp hnd).1
    have hnd2 : (l.map (fun r => r.id)).Nodup := (List.nodup_cons.mp hnd).2
    by_cases hai : a.id = i
    · have hrest : l.filter (fun r => r.id == i && !(r.status == statusArchived)) = [] := by
        rw [List.filter_eq_nil_iff]
        intro r hr hpr
        rw [Bool.and_eq_true] at hpr
        have : r.id = i := by simpa using hpr.1
        exact hnd1 (hai ▸ this ▸ List.mem_map_of_mem (fun r => r.id) hr)
      rcases hpa : (a.id == i && !(a.status == statusArchived)) with _ | _ <;>
        simp [List.filter_cons, hpa, hrest]
    · have hpa : (a.id == i && !(a.status == statusArchived)) = false := by simp [hai]
      simp only [List.filter_cons, hpa, Bool.false_eq_true, if_false]
      exact ih hnd2

theorem archiveRevStep_ok_of_singleton (archivedAt : Int) {s : SqlStore} {i : Int}
    {r₀ : PlaceRevRow}
    (hf : s.placeRevs.filter (fun r => r.id == i && !(r.status == statusArchived)) = [r₀]) :
    archiveRevStep archivedAt s i = Except.ok (archStepStore archivedAt s i) := by
  unfold archiveRevStep
  rw [hf]
  simp [archStepStore, archLogRow]

theorem archStepStore_ids (archivedAt : Int) (s : SqlStore) (i : Int) :
    (archStepStore archivedAt s i).placeRevs.map (fun r => r.id) =
      s.placeRevs.map (fun r => r.id) := by
  simp only [archStepStore, List.map_map]
  apply List.map_congr_left
  intro r _
  by_cases h : (r.id == i && !(r.status == statusArchived)) = true
  · simp [Function.comp, h]
  · simp only [Function.comp]
    rw [if_neg h]

theorem stepMap_then_restMap (i : Int) (rest : List Int) (hni : i ∉ rest)
    (r : PlaceRevRow) :
    (fun r => if rest.contains r.id then { r with status := statusArchived } else r)
      (if r.id == i && !(r.status == statusArchived) then
        { r with status := statusArchived } else r) =
      (if (i :: rest).contains r.id then { r with status := statusArchived } else r) := by
  by_cases hid : r.id = i
  · have hcr : rest.contains r.id = false := by
      rw [Bool.eq_false_iff]
      intro hc
      exact hni (hid ▸ (int_contains_iff rest r.id).mp hc)
    have hcc : (i :: rest).contains r.id = true := by
      rw [int_contains_iff]
      exact hid ▸ List.mem_cons_self i rest
    by_cases harch : r.status = statusArchived
    · have h1 : (r.id == i && !(r.status == statusArchived)) = false := by simp [harch]
      rw [h1]
      simp only [Bool.false_eq_true, if_false, hcr, hcc, if_true]
      cases r
      simp_all
    · have h1 : (r.id == i && !(r.status == statusArchived)) = true := by simp [hid, harch]
      rw [h1]
      simp only [hcc, if_true]
      rw [if_neg (by rw [hcr]; simp)]
  · have h1 : (r.id == i && !(r.status == statusArchived)) = false := by simp [hid]
    rw [h1]
    have hcc : ((i :: rest).contains r.id) = (rest.contains r.id) := by
      apply bool_eq_of_iff
      rw [int_contains_iff, int_contains_iff]
      constructor
      · intro h
        rcases List.mem_cons.mp h with h | h
        · exact absurd h hid
        · exact h
      · exact fun h => List.mem_cons_of_mem i h
    simp only [Bool.false_eq_true, if_false, hcc]

theorem archiveRevLoop_ok (archivedAt : Int) :
    ∀ (ids : List Int) (s : SqlStore),
      (s.placeRevs.map (fun r => r.id)).Nodup → ids.Nodup →
      (∀ i ∈ ids, ∃ r₀ ∈ s.placeRevs, r₀.id = i ∧ r₀.status ≠ statusArchived) →
      archiveRevLoop archivedAt s ids = Except.ok
        { s with
          placeRevs := s.placeRevs.map (fun r =>
            if ids.contains r.id then { r with status := statusArchived } else r),
          revLogs := s.revLogs ++ ids.map (archLogRow archivedAt) } := by
  intro ids
  induction ids with
  | nil =>
    intro s hnd _ _
    have hmap : s.placeRevs.map (fun r =>
        if ([] : List Int).contains r.id then { r with status := statusArchived }
        else r) = s.placeRevs := by
      have : ∀ r ∈ s.placeRevs,
          (if ([] : List Int).contains r.id then { r with status := statusArchived }
          else r) = id r := by
        intro r _
        simp [List.contains]
      rw [List.map_congr_left this, List.map_id]
    rw [archiveRevLoop, hmap]
    simp
  | cons i rest ih =>
    intro s hnd hndids hfresh
    rcases hfresh i (List.mem_cons_self i rest) with ⟨r₀, hr₀, hid, hst⟩
    have hndids1 : i ∉ rest := (List.nodup_cons.mp hndids).1
    have hndids2 : rest.Nodup := (List.nodup_cons.mp hndids).2
    have hfilter := filter_unique_unarchived i s.placeRevs hnd r₀ hr₀ hid hst
    have hstep := archiveRevStep_ok_of_singleton archivedAt hfilter
    have hnd1 : ((archStepStore archivedAt s i).placeRevs.map (fun r => r.id)).Nodup := by
      rw [archStepStore_ids]
      exact hnd
    have hfresh1 : ∀ j ∈ rest, ∃ r₁ ∈ (archStepStore archivedAt s i).placeRevs,
        r₁.id = j ∧ r₁.status ≠ statusArchived := by
      intro j hj
      rcases hfresh j (List.mem_cons_of_mem i hj) with ⟨r₁, hr₁, hid₁, hst₁⟩
      have hj_ne : r₁.id ≠ i := by
        rw [hid₁]
        intro hji
        exact hndids1 (hji ▸ hj)
      refine ⟨r₁, ?_, hid₁, hst₁⟩
      have heq : (if r₁.id == i && !(r₁.status == statusArchived) then
          { r₁ with status := statusArchived } else r₁) = r₁ := by
        rw [if_neg (by simp [hj_ne])]
      exact heq ▸ List.mem_map_of_mem _ hr₁
    have hrest := ih (archStepStore archivedAt s i) hnd1 hndids2 hfresh1
    rw [archiveRevLoop, hstep]
    show archiveRevLoop archivedAt (archStepStore archivedAt s i) rest = _
    rw [hrest]
    have hmaps : (archStepStore archivedAt s i).placeRevs.map (fun r =>
        if rest.contains r.id then { r with status := statusArchived } else r) =
        s.placeRevs.map (fun r =>
          if (i :: rest).contains r.id then { r with status := statusArchived }
          else r) := by
      simp only [archStepStore, List.map_map]
      apply List.map_congr_left
      intro r _
      exact stepMap_then_restMap i rest hndids1 r
    have hlogs : (archStepStore archivedAt s i).revLogs ++
        rest.map (archLogRow archivedAt) =
        s.revLogs ++ (i :: rest).map (archLogRow archivedAt) := by
      simp [archStepStore]
    rw [hmaps, hlogs]
    rfl

theorem archiveRevLoop_notFound (archivedAt : Int) :
    ∀ (ids : List Int) (s : SqlStore),
      (s.placeRevs.map (fun r => r.id)).Nodup →
      (∃ i ∈ ids, ∀ r ∈ s.placeRevs, r.id = i → r.status = statusArchived) →
      archiveRevLoop archivedAt s ids = Except.error RepoError.notFound := by
  intro ids
  induction ids with
  | nil =>
    intro s _ hbad
    rcases hbad with ⟨i, hi, _⟩
    exact absurd hi (List.not_mem_nil i)
  | cons i rest ih =>
    intro s hnd hbad
    rcases hbad with ⟨j, hj, hjarch⟩
    rcases List.mem_cons.mp hj with hji | hjrest
    · subst hji
      have hfilter : s.placeRevs.filter
          (fun r => r.id == j && !(r.status == statusArchived)) = [] := by
        rw [List.filter_eq_nil_iff]
        intro r hr hpr
        rw [Bool.and_eq_true] at hpr
        have := hjarch r hr (by simpa using hpr.1)
        simp [this] at hpr
      rw [archiveRevLoop]
      unfold archiveRevStep
      rw [hfilter]
      simp
    · have hle := filter_id_length_le_one i s.placeRevs hnd
      rcases hf : s.placeRevs.filter
          (fun r => r.id == i && !(r.status == statusArchived)) with _ | ⟨r₀, tail⟩
      · rw [archiveRevLoop]
        unfold archiveRevStep
        rw [hf]
        simp
      · have htail : tail = [] := by
          rw [hf] at hle
          simp at hle
          exact hle
        subst htail
        have hstep := archiveRevStep_ok_of_singleton archivedAt hf
        rw [archiveRevLoop, hstep]
        show archiveRevLoop archivedAt (archStepStore archivedAt s i) rest = _
        apply ih
        · rw [archStepStore_ids]
          exact hnd
        · refine ⟨j, hjrest, ?_⟩
          intro r hr hid
          rcases List.mem_map.mp hr with ⟨r0, hr0, hfr⟩
          by_cases h : (r0.id == i && !(r0.status == statusArchived)) = true
          · rw [if_pos h] at hfr
            rw [← hfr]
          · rw [if_neg h] at hfr
            subst hfr
            exact hjarch r0 hr0 hid

/-- Counterexample for C1: an empty store and a uid that resolves to no
revisions — the claim requires a `NotFound` failure, but
`archive_entries` succeeds and reports zero archived revisions (missing
uids simply drop out of the inner join). -/
theorem archiveEntries_missing_uid_ok :
    archiveEntries {} ["missing"] 99 = Except.ok ({}, 0) := rfl

/-- Claim C1 (corrected): `archive_entries(uids, at)` collects the
current revisions of the listed uids (uids matching no place are
silently skipped), transitions each collected revision to `archived`
and appends one log entry per transition, and returns the number of
collected revisions; it fails `NotFound` exactly when some collected
current revision is already archived (the update touches zero rows);
`TooManyFound` would require a single rowid-keyed update to touch more
than one row and is unreachable for unique rowids. -/
theorem archiveEntries_behaviour :
    (∀ (s : SqlStore) (uids : List String) (archivedAt : Int),
      (s.placeRevs.map (fun r => r.id)).Nodup →
      (currentRevIds s uids).Nodup →
      (∀ i ∈ currentRevIds s uids, ∃ r₀ ∈ s.placeRevs,
        r₀.id = i ∧ r₀.status ≠ statusArchived) →
      archiveEntries s uids archivedAt = Except.ok
        ({ s with
            placeRevs := s.placeRevs.map (fun r =>
              if (currentRevIds s uids).contains r.id then
                { r with status := statusArchived } else r),
            revLogs := s.revLogs ++
              (currentRevIds s uids).map (archLogRow archivedAt) },
          (currentRevIds s uids).length)) ∧
    (∀ (s : SqlStore) (uids : List String) (archivedAt : Int),
      (s.placeRevs.map (fun r => r.id)).Nodup →
      (∃ i ∈ currentRevIds s uids, ∀ r ∈ s.placeRevs,
        r.id = i → r.status = statusArchived) →
      archiveEntries s uids archivedAt = Except.error RepoError.notFound) := by
  constructor
  · intro s uids archivedAt hnd hndids hfresh
    unfold archiveEntries
    dsimp only
    rw [archiveRevLoop_ok archivedAt (currentRevIds s uids) s hnd hndids hfresh]
  · intro s uids archivedAt hnd hbad
    unfold archiveEntries
    dsimp only
    rw [archiveRevLoop_notFound archivedAt (currentRevIds s uids) s hnd hbad]

/-- A store with one place whose single current revision is not yet
archived, for the C1 witness. -/
def c1Store : SqlStore :=
  { places := [{ id := 1, uid := "p", rev := 0 }],
    placeRevs := [{ id := 1, placeId := 1, rev := 0, createdAt := 0,
                    createdBy := none, status := statusCreated, payload := {} }] }

/-- Witness for C1: archiving the single live place of a concrete store
transitions its current revision, logs it, and reports one archived
revision. -/
theorem archiveEntries_behaviour_witness :
    archiveEntries c1Store ["p"] 7 = Except.ok
      ({ c1Store with
          placeRevs := c1Store.placeRevs.map (fun r =>
            if (currentRevIds c1Store ["p"]).contains r.id then
              { r with status := statusArchived } else r),
          revLogs := c1Store.revLogs ++
            (currentRevIds c1Store ["p"]).map (archLogRow 7) },
        (currentRevIds c1Store ["p"]).length) :=
  archiveEntries_behaviour.1 c1Store ["p"] 7 (by decide) (by decide)
    (by
      intro i hi
      refine ⟨{ id := 1, placeId := 1, rev := 0, createdAt := 0,
                createdBy := none, status := statusCreated, payload := {} },
        List.mem_singleton.mpr rfl, ?_, by decide⟩
      have : i = 1 := by
        have := hi
        simp [currentRevIds, c1Store] at this
        exact this
      rw [this])

/-! ## Claim C7: the search usecase and its two bboxes -/

theorem excludeBboxClauses_mem_buildQuery {q : IndexQuery} {B : MapBboxRaw}
    (hB : q.excludeBbox = some B) {c : Occur × Query}
    (hc : c ∈ excludeBboxClauses B) : c ∈ (buildQuery q).1 := by
  have hbase : c ∈ baseClauses q := by
    unfold baseClauses
    rw [hB]
    exact List.mem_append_left _ (List.mem_append_left _
      (List.mem_append_right _ hc))
  unfold buildQuery
  by_cases h : (textAndTagsQueries q).isEmpty
  · rw [if_pos h]; exact hbase
  · rw [if_neg h]; exact List.mem_append_left _ hbase

theorem bbox_include_contains {q : IndexQuery} {B : MapBboxRaw} {d : Doc}
    (hB : q.includeBbox = some B)
    (hm : docMatchesClauses d (buildQuery q).1 = true)
    (hlo : -rawCoordMax ≤ d.lng) (hhi : d.lng ≤ rawCoordMax) :
    containsPoint B { lat := d.lat, lng := d.lng } = true := by
  have hspec := docMatchesClauses_spec hm
  have hlat := (hspec _ (includeBboxClauses_mem_buildQuery hB
    (List.mem_cons_self _ _))).1 rfl
  have hlat2 : B.sw.lat ≤ d.lat ∧ d.lat ≤ B.ne.lat := by
    simpa [docMatches] using hlat
  unfold containsPoint
  by_cases hwrap : B.sw.lng ≤ B.ne.lng
  · have hlng := (hspec _ (includeBboxClauses_mem_buildQuery hB (by
      unfold includeBboxClauses
      rw [if_pos hwrap]
      exact List.mem_cons_of_mem _ (List.mem_singleton.mpr rfl)))).1 rfl
    have hlng2 : B.sw.lng ≤ d.lng ∧ d.lng ≤ B.ne.lng := by
      simpa [docMatches] using hlng
    simp [hwrap, hlat2.1, hlat2.2, hlng2.1, hlng2.2]
  · have hlng := (hspec _ (includeBboxClauses_mem_buildQuery hB (by
      unfold includeBboxClauses
      rw [if_neg hwrap]
      exact List.mem_cons_of_mem _ (List.mem_singleton.mpr rfl)))).2 rfl
    have hlng2 : ¬(B.ne.lng < d.lng ∧ d.lng < B.sw.lng) := by
      intro hcon
      have : docMatches d (Query.rangeExcl Field.lng B.ne.lng B.sw.lng) = true := by
        simp [docMatches, hcon.1, hcon.2]
      rw [this] at hlng
      exact absurd hlng (by simp)
    rw [if_neg hwrap]
    have hside : B.sw.lng ≤ d.lng ∨ d.lng ≤ B.ne.lng := by
      rcases not_and_or.mp hlng2 with h | h
      · right; exact not_lt.mp h
      · left; exact not_lt.mp h
    rcases hside with h | h
    · simp [hlat2.1, hlat2.2, h, hhi]
    · simp [hlat2.1, hlat2.2, h, hlo]

theorem bbox_exclude_not_contains {q : IndexQuery} {B : MapBboxRaw} {d : Doc}
    (hB : q.excludeBbox = some B)
    (hm : docMatchesClauses d (buildQuery q).1 = true) :
    containsPoint B { lat := d.lat, lng := d.lng } = false := by
  have hspec := docMatchesClauses_spec hm
  have hlat := (hspec _ (excludeBboxClauses_mem_buildQuery hB
    (List.mem_cons_self _ _))).2 rfl
  have hlat2 : ¬(B.sw.lat ≤ d.lat ∧ d.lat ≤ B.ne.lat) := by
    intro hcon
    have : docMatches d (Query.rangeIncl Field.lat B.sw.lat B.ne.lat) = true := by
      simp [docMatches, hcon.1, hcon.2]
    rw [this] at hlat
    exact absurd hlat (by simp)
  unfold containsPoint
  rcases not_and_or.mp hlat2 with h | h <;> simp [h]

/-- Claim C7 (confirmed): for legal document coordinates, a successful
search returns `(visible, invisible)` with every visible result inside
the request bbox; `invisible` is non-empty only when `visible` has
fewer than `limit` elements, contains only results inside
`extend_bbox(bbox)` but outside the request bbox, and has at most
`limit − |visible|` elements, so the two lists together never exceed
`limit`. -/
theorem search_bbox_visibility :
    ∀ (docs : List Doc) (rawScore : Doc → ℚ) (req : SearchRequest) (limit : Nat)
      (vis inv : List Doc),
      (∀ d ∈ docs, -rawCoordMax ≤ d.lng ∧ d.lng ≤ rawCoordMax) →
      searchUsecase docs rawScore req limit = Except.ok (vis, inv) →
      ((∀ d ∈ vis, containsPoint req.bbox { lat := d.lat, lng := d.lng } = true) ∧
       (inv ≠ [] → vis.length < limit) ∧
       (∀ d ∈ inv,
         containsPoint (extendBbox req.bbox) { lat := d.lat, lng := d.lng } = true ∧
         containsPoint req.bbox { lat := d.lat, lng := d.lng } = false) ∧
       inv.length ≤ limit - vis.length ∧
       vis.length + inv.length ≤ limit) := by
  intro docs rawScore req limit vis inv hlegal h
  unfold searchUsecase at h
  dsimp only at h
  split at h
  · exact absurd h (by simp)
  · next vp heq1 =>
    by_cases hlt : vp.length < limit
    · rw [if_pos hlt] at h
      split at h
      · exact absurd h (by simp)
      · next ip heq2 =>
        simp only [Except.ok.injEq, Prod.mk.injEq] at h
        obtain ⟨hv, hi⟩ := h
        subst hv
        subst hi
        refine ⟨?_, fun _ => hlt, ?_, ?_, ?_⟩
        · intro d hd
          have hmm := queryPlaces_ok_mem heq1 d hd
          exact bbox_include_contains rfl hmm.2 (hlegal d hmm.1).1 (hlegal d hmm.1).2
        · intro d hd
          have hmm := queryPlaces_ok_mem heq2 d hd
          exact ⟨bbox_include_contains rfl hmm.2 (hlegal d hmm.1).1 (hlegal d hmm.1).2,
            bbox_exclude_not_contains rfl hmm.2⟩
        · exact queryPlaces_ok_length heq2
        · have h1 := queryPlaces_ok_length heq1
          have h2 := queryPlaces_ok_length heq2
          omega
    · rw [if_neg hlt] at h
      simp only [Except.ok.injEq, Prod.mk.injEq] at h
      obtain ⟨hv, hi⟩ := h
      subst hv
      subst hi
      refine ⟨?_, fun hne => absurd rfl hne, ?_, ?_, ?_⟩
      · intro d hd
        have hmm := queryPlaces_ok_mem heq1 d hd
        exact bbox_include_contains rfl hmm.2 (hlegal d hmm.1).1 (hlegal d hmm.1).2
      · intro d hd
        exact absurd hd (List.not_mem_nil d)
      · simp
      · have h1 := queryPlaces_ok_length heq1
        simp only [List.length_nil]
        omega

/-- The degenerate bbox used by the C7 witness. -/
def c7Bbox : MapBboxRaw :=
  { sw := { lat := 0, lng := 0 }, ne := { lat := 0, lng := 0 } }

/-- Witness for C7: a search over an empty index returns two empty lists
that satisfy all the separation properties. -/
theorem search_bbox_visibility_witness :
    (∀ d ∈ ([] : List Doc),
      containsPoint c7Bbox { lat := d.lat, lng := d.lng } = true) ∧
    (([] : List Doc) ≠ [] → ([] : List Doc).length < 1) ∧
    (∀ d ∈ ([] : List Doc),
      containsPoint (extendBbox c7Bbox) { lat := d.lat, lng := d.lng } = true ∧
      containsPoint c7Bbox { lat := d.lat, lng := d.lng } = false) ∧
    ([] : List Doc).length ≤ 1 - ([] : List Doc).length ∧
    ([] : List Doc).length + ([] : List Doc).length ≤ 1 :=
  search_bbox_visibility [] (fun _ => 0) { bbox := c7Bbox } 1 [] [] (by simp) rfl

end OFDB
